import Mathlib

/-!
# Verification of the Ventas issue-processing pipeline

Shallow embedding of `scripts/process_issue.py` and the aggregation logic of
`scripts/build_reports.py`.  Strings are modelled as `List Char` (`Str`), CSV
ledgers as Lean lists of records, pandas data frames as lists, and the numeric
price/amount columns (Python floats formatted with `"%.2f"`) as exact
rationals with explicit round-half-to-even at two decimals.  All definitions
are executable so that concrete events can be evaluated inside proofs.
-/

attribute [local semireducible] Rat.mul Rat.add Rat.sub Rat.inv

namespace Ventas

/-- Strings are modelled as lists of characters. -/
abbrev Str := List Char

/-- Coerce a Lean string literal to the `Str` model. -/
def str (s : String) : Str := s.data

/-! ## Python string primitives -/

/-- The whitespace characters recognised by Python's `str.strip` /
`str.split` (space, tab, newline, carriage return, vertical tab, form feed). -/
def isPyWs (c : Char) : Bool :=
  c = ' ' || c = '\t' || c = '\n' || c = '\r' || c = Char.ofNat 11 || c = Char.ofNat 12

/-- Left strip, as in Python `str.lstrip()`. -/
def stripL (cs : Str) : Str := cs.dropWhile isPyWs

/-- Right strip, as in Python `str.rstrip()`. -/
def stripR (cs : Str) : Str := (cs.reverse.dropWhile isPyWs).reverse

/-- Python `str.strip()`. -/
def pyStrip (cs : Str) : Str := stripR (stripL cs)

/-- Helper for `splitLines`; `acc` holds the current line reversed. -/
def splitLinesAux : Str → Str → List Str
  | [], acc => if acc.isEmpty then [] else [acc.reverse]
  | '\r' :: '\n' :: t, acc => acc.reverse :: splitLinesAux t []
  | '\n' :: t, acc => acc.reverse :: splitLinesAux t []
  | '\r' :: t, acc => acc.reverse :: splitLinesAux t []
  | c :: t, acc => splitLinesAux t (c :: acc)

/-- Python `str.splitlines()` (restricted to `\n`, `\r`, `\r\n` line ends):
no entry for a trailing newline, and the empty string yields no lines. -/
def splitLines (cs : Str) : List Str := splitLinesAux cs []

/-- Helper for `splitOnChar`. -/
def splitOnCharAux (sep : Char) : Str → Str → List Str
  | [], acc => [acc.reverse]
  | c :: t, acc =>
    if c = sep then acc.reverse :: splitOnCharAux sep t []
    else splitOnCharAux sep t (c :: acc)

/-- Python `str.split(sep)` for a single-character separator: keeps empty
fields, and the empty string yields one empty field. -/
def splitOnChar (sep : Char) (cs : Str) : List Str := splitOnCharAux sep cs []

/-- ASCII lower-casing, modelling Python `str.lower()` on the ASCII range
(the tag and field names compared in the scripts are ASCII apart from
accented letters that appear identically on both sides). -/
def toLowerCh (c : Char) : Char :=
  if 'A' ≤ c ∧ c ≤ 'Z' then Char.ofNat (c.toNat + 32) else c

/-- Python `needle in hay` on strings (contiguous substring test). -/
def strHas (needle : Str) : Str → Bool
  | [] => needle.isEmpty
  | c :: t => needle.isPrefixOf (c :: t) || strHas needle t

/-! ## Numeric parsing -/

def isDigitCh (c : Char) : Bool := '0' ≤ c && c ≤ '9'

def digitVal (c : Char) : Nat := c.toNat - '0'.toNat

def natOfDigits (cs : Str) : Nat := cs.foldl (fun a c => 10 * a + digitVal c) 0

/-- Checker for the digit/underscore body of a Python integer literal,
assuming the previous character was a digit: single underscores are allowed
only between digits. -/
def udAux : Str → Bool
  | [] => true
  | '_' :: d :: t' => isDigitCh d && udAux t'
  | '_' :: [] => false
  | c :: t => isDigitCh c && udAux t

/-- A non-empty digit string with optional single underscores between digits,
as accepted by Python `int()`. -/
def udOk : Str → Bool
  | [] => false
  | c :: t => isDigitCh c && udAux t

/-- Python `int(s)`: strip whitespace, optional sign, digits with optional
single underscores between digits.  `none` models the `ValueError` branch. -/
def parsePyInt (cs : Str) : Option Int :=
  let s := pyStrip cs
  match s with
  | '+' :: t => if udOk t then some (Int.ofNat (natOfDigits (t.filter (· ≠ '_')))) else none
  | '-' :: t => if udOk t then some (-(Int.ofNat (natOfDigits (t.filter (· ≠ '_'))))) else none
  | t => if udOk t then some (Int.ofNat (natOfDigits (t.filter (· ≠ '_')))) else none

def pow10 (n : Nat) : ℚ := (10 : ℚ) ^ n

/-- Exponent part of a float literal (after the `e`/`E`): optional sign and
a non-empty digit string; returns the scale factor. -/
def parseExpPart (cs : Str) : Option ℚ :=
  match cs with
  | '+' :: t => if !t.isEmpty && t.all isDigitCh then some (pow10 (natOfDigits t)) else none
  | '-' :: t => if !t.isEmpty && t.all isDigitCh then some (1 / pow10 (natOfDigits t)) else none
  | t => if !t.isEmpty && t.all isDigitCh then some (pow10 (natOfDigits t)) else none

/-- Numeric coercion of a price string (`pd.to_numeric(..., errors="coerce")`),
modelled as an exact rational: optional sign, decimal digits with an optional
fractional part, optional exponent.  `none` models coercion to `NaN`
(including the empty string and non-finite literals), which the scripts treat
as "no explicit price". -/
def parsePyFloatQ (cs : Str) : Option ℚ :=
  let s := pyStrip cs
  let sgn : ℚ × Str :=
    match s with
    | '+' :: t => (1, t)
    | '-' :: t => (-1, t)
    | t => (1, t)
  let ip := sgn.2.takeWhile isDigitCh
  let r1 := sgn.2.dropWhile isDigitCh
  let fpr2 : Str × Str :=
    match r1 with
    | '.' :: r => (r.takeWhile isDigitCh, r.dropWhile isDigitCh)
    | r => ([], r)
  if ip.isEmpty && fpr2.1.isEmpty then none
  else
    let mant : ℚ := (natOfDigits ip : ℚ) + (natOfDigits fpr2.1 : ℚ) / pow10 fpr2.1.length
    match fpr2.2 with
    | [] => some (sgn.1 * mant)
    | 'e' :: er => (parseExpPart er).map (fun e => sgn.1 * mant * e)
    | 'E' :: er => (parseExpPart er).map (fun e => sgn.1 * mant * e)
    | _ => none

/-- Round a rational to the nearest integer, ties to even: the rounding used
when the scripts format amounts with `f"{x:.2f}"` (modelled on the exact
value). -/
def roundHalfEvenInt (q : ℚ) : Int :=
  let f : Int := ⌊q⌋
  let frac : ℚ := q - (f : ℚ)
  if frac < 1 / 2 then f
  else if 1 / 2 < frac then f + 1
  else if f % 2 = 0 then f else f + 1

/-- Round to two decimals (currency precision of the stored CSV columns). -/
def round2 (q : ℚ) : ℚ := (roundHalfEvenInt (q * 100) : ℚ) / 100

/-! ## Date handling (`safe_parse_date`) -/

def isLeapYear (y : Nat) : Bool := (y % 4 = 0 && y % 100 ≠ 0) || y % 400 = 0

def daysInMonth (y m : Nat) : Nat :=
  if m = 2 then (if isLeapYear y then 29 else 28)
  else if m = 4 || m = 6 || m = 9 || m = 11 then 30 else 31

/-- A 1- or 2-digit numeric field in the range `[lo, hi]`, as matched by
`strptime`'s `%m` / `%d`. -/
def twoDigitField (cs : Str) (lo hi : Nat) : Option Nat :=
  if !cs.isEmpty && cs.length ≤ 2 && cs.all isDigitCh then
    let v := natOfDigits cs
    if lo ≤ v && v ≤ hi then some v else none
  else none

/-- A 4-digit year field (`%Y`), at least year 1 (`datetime.MINYEAR`). -/
def yearField (cs : Str) : Option Nat :=
  if cs.length = 4 && cs.all isDigitCh then
    let v := natOfDigits cs
    if 1 ≤ v then some v else none
  else none

/-- Reject calendar-invalid dates, as `datetime` does. -/
def mkDate (y m d : Nat) : Option (Nat × Nat × Nat) :=
  if d ≤ daysInMonth y m then some (y, m, d) else none

/-- Model of `strptime` with format `%Y<sep>%m<sep>%d`. -/
def parseYmd (sep : Char) (cs : Str) : Option (Nat × Nat × Nat) :=
  match splitOnChar sep cs with
  | [ys, ms, ds] => do
    let y ← yearField ys
    let m ← twoDigitField ms 1 12
    let d ← twoDigitField ds 1 31
    mkDate y m d
  | _ => none

/-- Model of `strptime` with format `%d/%m/%Y`. -/
def parseDmy (cs : Str) : Option (Nat × Nat × Nat) :=
  match splitOnChar '/' cs with
  | [ds, ms, ys] => do
    let y ← yearField ys
    let m ← twoDigitField ms 1 12
    let d ← twoDigitField ds 1 31
    mkDate y m d
  | _ => none

def padZeros (k n : Nat) : Str :=
  let d := Nat.toDigits 10 n
  List.replicate (k - d.length) '0' ++ d

/-- Model of `date.isoformat()`: canonical `YYYY-MM-DD`. -/
def dateIso (t : Nat × Nat × Nat) : Str :=
  padZeros 4 t.1 ++ '-' :: (padZeros 2 t.2.1 ++ '-' :: padZeros 2 t.2.2)

/-- Try the three accepted formats in the source's order:
`%Y-%m-%d`, `%d/%m/%Y`, `%Y/%m/%d`. -/
def tryFormats (cs : Str) : Option Str :=
  match parseYmd '-' cs with
  | some t => some (dateIso t)
  | none =>
    match parseDmy cs with
    | some t => some (dateIso t)
    | none => (parseYmd '/' cs).map dateIso

/-- The date chain of `safe_parse_date(s, issue)`: the accepted formats, else the first ten
characters of the event's `created_at` when non-empty, else today's date
(the ambient current date is passed explicitly). -/
def safe_parse_date (s created today : Str) : Str :=
  match tryFormats (pyStrip s) with
  | some d => d
  | none => if created.isEmpty then today else created.take 10

/-! ## SKU validation and the items table (`is_valid_sku`, `parse_items_table`) -/

/-- The restricted code alphabet `[A-Z0-9-:]`. -/
def skuChar (c : Char) : Bool :=
  ('A' ≤ c && c ≤ 'Z') || ('0' ≤ c && c ≤ '9') || c = '-' || c = ':'

/-- The validity rule `is_valid_sku`: strip, reject bolded labels (`**…`), embedded spaces, and
anything not matching `^[A-Z0-9\-:]{3,}$`. -/
def is_valid_sku (cs : Str) : Bool :=
  let s := pyStrip cs
  !s.isEmpty && !(['*', '*'].isPrefixOf s) && !(s.contains ' ')
    && decide (3 ≤ s.length) && s.all skuChar

/-- Case-insensitive literal key match at the front of `u`; on success
returns the remainder (the key is ASCII-case-folded on both sides). -/
def afterKey (key u : Str) : Option Str :=
  if (key.map toLowerCh).isPrefixOf (u.map toLowerCh) then some (u.drop key.length)
  else none

/-- One line matched against `^\s*(\*\*\s*KEY\s*\*\*|KEY)\s*:\s*(.*)$`
(case-insensitive); returns the stripped captured value. -/
def lineFieldValue (key ln : Str) : Option Str :=
  let t := stripL ln
  match t with
  | '*' :: '*' :: u =>
    match afterKey key (stripL u) with
    | some rest =>
      match stripL rest with
      | '*' :: '*' :: v =>
        match stripL v with
        | ':' :: w => some (pyStrip w)
        | _ => none
      | _ => none
    | none => none
  | _ =>
    match afterKey key t with
    | some rest =>
      match stripL rest with
      | ':' :: w => some (pyStrip w)
      | _ => none
    | none => none

/-- The field extractor `grab_field(body, key)`: value of the first line carrying the labelled
field, `""` when absent. -/
def grab_field (body key : Str) : Str :=
  match (splitLines body).findSome? (lineFieldValue key) with
  | some v => v
  | none => []

/-- One line matched against the items heading
`^\s*(\*\*\s*)?items(\s*\*\*)?\s*$` (case-insensitive). -/
def isItemsHeaderLn (ln : Str) : Bool :=
  let t := stripL ln
  let t1 :=
    match t with
    | '*' :: '*' :: u => stripL u
    | u => u
  if (str "items").isPrefixOf (t1.map toLowerCh) then
    let r := stripL (t1.drop 5)
    match r with
    | '*' :: '*' :: v => (stripL v).isEmpty
    | v => v.isEmpty
  else false

/-- Model of `parse_items_section`: the lines after the first items heading. -/
def itemsSectionLines : List Str → Option (List Str)
  | [] => none
  | ln :: t => if isItemsHeaderLn ln then some t else itemsSectionLines t

/-- A raw line item as produced by the text extractor: the SKU cell, the
parsed quantity, and the literal unit-price cell (`[]` when the transaction
kind carries no price column). -/
structure RawItem where
  item : Str
  cantidad : Int
  precioUnit : Str
deriving DecidableEq, Repr

/-- The stripped cells of a pipe-delimited row
(`parts = [p.strip() for p in ln.split("|")]`). -/
def rowParts (ln : Str) : List Str := (splitOnChar '|' ln).map pyStrip

/-- The joined head `"|".join(p.lower() for p in parts[:3])`. -/
def rowHead (ln : Str) : Str :=
  List.intercalate ['|'] (((rowParts ln).take 3).map (List.map toLowerCh))

/-- The header/separator rejection: the lowercase head cells contain both
`sku` and `cantidad`, or the line starts with `---`. -/
def rowSkipped (ln : Str) : Bool :=
  (strHas (str "sku") (rowHead ln) && strHas (str "cantidad") (rowHead ln))
    || (str "---").isPrefixOf ln

/-- One pipe-delimited row of the items table (already stripped, known to
contain `'|'`): header/separator rejection, SKU validation, positive-integer
quantity, and — only when `has_price` — a mandatory third cell taken as the
literal price string. -/
def parseRow (has_price : Bool) (ln : Str) : Option RawItem :=
  let parts := rowParts ln
  if rowSkipped ln then none
  else if has_price then
    match parts with
    | sku :: qty :: price :: _ =>
      if is_valid_sku sku then
        match parsePyInt qty with
        | some q => if 0 < q then some ⟨sku, q, price⟩ else none
        | none => none
      else none
    | _ => none
  else
    match parts with
    | sku :: qty :: _ =>
      if is_valid_sku sku then
        match parsePyInt qty with
        | some q => if 0 < q then some ⟨sku, q, []⟩ else none
        | none => none
      else none
    | _ => none

/-- The scanning loop of `parse_items_table`: blank or pipe-free lines are
skipped before the first item and terminate the table after it. -/
def scanItems (has_price : Bool) : List Str → List RawItem → List RawItem
  | [], out => out.reverse
  | raw :: t, out =>
    let ln := pyStrip raw
    if ln.isEmpty || !(ln.contains '|') then
      if out.isEmpty then scanItems has_price t out else out.reverse
    else
      match parseRow has_price ln with
      | some it => scanItems has_price t (it :: out)
      | none => scanItems has_price t out

/-- Model of `parse_items_table(body, has_price)`. -/
def parse_items_table (body : Str) (has_price : Bool) : List RawItem :=
  match itemsSectionLines (splitLines body) with
  | none => []
  | some lines => scanItems has_price lines []

/-! ## Event parsing and classification (`parse_issue`) -/

/-- An issue event as delivered to the script: title, body, labels, the
origin reference (`html_url`) and the creation timestamp. -/
structure Event where
  title : Str
  body : Str
  labels : List Str
  html_url : Str
  created_at : Str
deriving DecidableEq, Repr

/-- The lower-cased label set built at the top of `parse_issue`. -/
def labelsOf (ev : Event) : List Str := ev.labels.map (List.map toLowerCh)

/-- Payment-method resolution: labelled field, normalised to
`tarjeta`/`efectivo`, with a title keyword fallback. -/
def parseMetodo (ev : Event) : Str :=
  let m := (grab_field ev.body (str "Método de pago")).map toLowerCh
  let m := if m = str "tarjeta" || m = str "efectivo" || m = [] then m else str "efectivo"
  if m.isEmpty then
    if strHas (str "tarjeta") (ev.title.map toLowerCh) then str "tarjeta" else str "efectivo"
  else m

/-- The transaction type resolved by `parse_issue`'s dispatch. -/
inductive TxType
  | ventaMulti | ventaSingle | prodMulti | prodSingle
  | ventaMktMulti | ventaMktSingle | abastoMktMulti | abastoMktSingle
  | noneT
deriving DecidableEq, Repr

/-- The structured result of `parse_issue`. -/
structure ParsedIssue where
  type : TxType
  fecha : Str
  issue_url : Str
  metodo_pago : Str
  items : List RawItem
deriving DecidableEq, Repr

/-- The single-item fallback built from the discrete labelled fields, with
quantity defaulting to 1 when `Cantidad` does not parse as an integer. -/
def singleFallback (body : Str) (withPrice : Bool) : RawItem :=
  ⟨grab_field body (str "Item"),
    (parsePyInt (grab_field body (str "Cantidad"))).getD 1,
    if withPrice then grab_field body (str "Precio unitario (opcional)") else []⟩

/-- Model of `parse_issue(issue)`: classification by label membership in source
order — general sale (guarded against market labels), production, market
sale, market transfer, else no-op — with the items table and the labelled
single-item fallback.  The ambient current date is passed as `today`. -/
def parse_issue (ev : Event) (today : Str) : ParsedIssue :=
  let fecha := safe_parse_date (grab_field ev.body (str "Fecha")) ev.created_at today
  let metodo := parseMetodo ev
  let url := ev.html_url
  if (labelsOf ev).contains (str "venta") && !(labelsOf ev).contains (str "venta-mercado")
      && !(labelsOf ev).contains (str "mercado") then
    let tbl := parse_items_table ev.body true
    if tbl.isEmpty then ⟨.ventaSingle, fecha, url, metodo, [singleFallback ev.body true]⟩
    else ⟨.ventaMulti, fecha, url, metodo, tbl⟩
  else if (labelsOf ev).contains (str "produccion")
      || (labelsOf ev).contains (str "producción") then
    let tbl := parse_items_table ev.body false
    if tbl.isEmpty then ⟨.prodSingle, fecha, url, metodo, [singleFallback ev.body false]⟩
    else ⟨.prodMulti, fecha, url, metodo, tbl⟩
  else if (labelsOf ev).contains (str "venta-mercado")
      || ((labelsOf ev).contains (str "mercado") && (labelsOf ev).contains (str "venta")) then
    let tbl := parse_items_table ev.body true
    if tbl.isEmpty then ⟨.ventaMktSingle, fecha, url, metodo, [singleFallback ev.body true]⟩
    else ⟨.ventaMktMulti, fecha, url, metodo, tbl⟩
  else if (labelsOf ev).contains (str "abasto-mercado")
      || (labelsOf ev).contains (str "traspaso-mercado") then
    let tbl := parse_items_table ev.body false
    if tbl.isEmpty then ⟨.abastoMktSingle, fecha, url, metodo, [singleFallback ev.body false]⟩
    else ⟨.abastoMktMulti, fecha, url, metodo, tbl⟩
  else ⟨.noneT, fecha, url, metodo, []⟩

/-! ## Inventory and ledgers -/

/-- One inventory record (a row of `inventory.csv` / `inventory_mercado.csv`
after `_load_inventory_file`'s normalisation): `precio` is `none` where the
CSV column coerces to `NaN`, `stock` is an integer. -/
structure InvRecord where
  item : Str
  descripcion : Str
  stock : Int
  precio : Option ℚ
  product_id : Str
deriving DecidableEq, Repr

/-- Model of `short_id_from_sku`: the sha1-hash prefix is abstracted as a
deterministic function of the SKU (its only property the scripts rely on);
no claim depends on its value. -/
def short_id_from_sku (sku : Str) : Str := sku

/-- Model of `_clean_items(items, require_price)`: strip the SKU, keep only valid
SKUs with positive quantity; the stripped literal price is kept only when
`require_price` (the dict otherwise has no price key, modelled as `[]`). -/
def clean_items (items : List RawItem) (require_price : Bool) : List RawItem :=
  items.filterMap (fun it =>
    let sku := pyStrip it.item
    if !(is_valid_sku sku) then none
    else if it.cantidad ≤ 0 then none
    else some ⟨sku, it.cantidad, if require_price then pyStrip it.precioUnit else []⟩)

/-- The inventory default-price consultation in `append_sales_general` /
`append_sales_mkt`: first record matching the SKU; its price when present,
else `0.0` (also when no record matches). -/
def inv_price (inv : List InvRecord) (sku : Str) : ℚ :=
  match inv.find? (fun r => decide (r.item = sku)) with
  | some r => r.precio.getD 0
  | none => 0

/-- One row of a sales ledger (`sales.csv` / `sales_mercado.csv`); the
formatted `"%.2f"` price and amount columns are modelled by their exact
rounded values. -/
structure SaleRow where
  txn_id : Str
  fecha : Str
  item : Str
  cantidad : Int
  precio_unit : ℚ
  importe : ℚ
  issue : Str
  metodo_pago : Str
  source_id : Str
deriving DecidableEq, Repr

def natToStr (n : Nat) : Str := Nat.toDigits 10 n

/-- The sale ledger row built for one cleaned line item at ordinal `idx`:
explicit price when numerically valid, else the inventory default, else
zero; `importe = cantidad × precio` rounded to two decimals;
`source_id = url#idx`. -/
def saleRowOf (inv : List InvRecord) (fecha url metodo txn : Str) (idx : Nat)
    (it : RawItem) : SaleRow :=
  let precio : ℚ :=
    match parsePyFloatQ it.precioUnit with
    | some q => q
    | none => inv_price inv it.item
  { txn_id := txn, fecha := fecha, item := it.item, cantidad := it.cantidad,
    precio_unit := round2 precio,
    importe := round2 ((it.cantidad : ℚ) * precio),
    issue := url,
    metodo_pago := if metodo.isEmpty then str "efectivo" else metodo,
    source_id := url ++ '#' :: natToStr idx }

/-- The `for idx, it in enumerate(items)` loop of the sale appenders. -/
def saleRowsGo (inv : List InvRecord) (fecha url metodo txn : Str) :
    Nat → List RawItem → List SaleRow
  | _, [] => []
  | i, it :: t => saleRowOf inv fecha url metodo txn i it
      :: saleRowsGo inv fecha url metodo txn (i + 1) t

/-- The batch of rows a sale event contributes
(`append_sales_general` / `append_sales_mkt` share this construction). -/
def sale_rows_of (inv : List InvRecord) (fecha : Str) (items : List RawItem)
    (url metodo txn : Str) : List SaleRow :=
  saleRowsGo inv fecha url metodo txn 0 (clean_items items true)

/-- Model of `_upsert_rows`: drop every existing row whose `source_id` occurs among
the incoming batch's keys, then append the batch. -/
def upsert_rows (old new : List SaleRow) : List SaleRow :=
  old.filter (fun r => decide (r.source_id ∉ new.map SaleRow.source_id)) ++ new

/-- Model of `append_sales_general` / `append_sales_mkt`: no-op on an empty cleaned
batch, else upsert by `source_id`. -/
def append_sales (ledger : List SaleRow) (inv : List InvRecord) (fecha : Str)
    (items : List RawItem) (url metodo txn : Str) : List SaleRow :=
  if (clean_items items true).isEmpty then ledger
  else upsert_rows ledger (sale_rows_of inv fecha items url metodo txn)

/-- A priceless ledger row (`production.csv` / `transfer_mercado.csv`):
these files carry no price, amount or `source_id` column. -/
structure PlainRow where
  txn_id : Str
  fecha : Str
  item : Str
  cantidad : Int
  issue : Str
deriving DecidableEq, Repr

/-- Model of `append_production`: a plain append of one row per cleaned item —
no upsert, no identity key. -/
def append_production (ledger : List PlainRow) (fecha : Str)
    (items : List RawItem) (url txn : Str) : List PlainRow :=
  ledger ++ (clean_items items false).map (fun it => ⟨txn, fecha, it.item, it.cantidad, url⟩)

/-- Model of `append_transfer_mkt`: likewise a plain append. -/
def append_transfer_mkt (ledger : List PlainRow) (fecha : Str)
    (items : List RawItem) (url txn : Str) : List PlainRow :=
  ledger ++ (clean_items items false).map (fun it => ⟨txn, fecha, it.item, it.cantidad, url⟩)

/-- The auto-created inventory record for a previously unknown SKU:
stock 0, empty description, no price. -/
def newInvRecord (sku : Str) : InvRecord :=
  { item := sku, descripcion := [], stock := 0, precio := Option.none,
    product_id := short_id_from_sku sku }

/-- One step of `apply_stock`'s loop: auto-create an absent record, then add
`delta` to every record matching the SKU. -/
def apply_stock_one (inv : List InvRecord) (sku : Str) (delta : Int) : List InvRecord :=
  if inv.any (fun r => decide (r.item = sku)) then
    inv.map (fun r => if r.item = sku then { r with stock := r.stock + delta } else r)
  else
    (inv ++ [newInvRecord sku]).map
      (fun r => if r.item = sku then { r with stock := r.stock + delta } else r)

/-- Model of `apply_stock(inv, items, sign)`: signed quantity deltas over the cleaned
items; stock may go negative (no clamping). -/
def apply_stock (inv : List InvRecord) (items : List RawItem) (sign : Int) : List InvRecord :=
  (clean_items items false).foldl
    (fun acc it => apply_stock_one acc it.item (sign * it.cantidad)) inv

/-- Stock of a product as read back from an inventory (first matching
record; absent records read as 0). -/
def stock_of (inv : List InvRecord) (sku : Str) : Int :=
  match inv.find? (fun r => decide (r.item = sku)) with
  | some r => r.stock
  | none => 0

/-! ## The persistent stores and `main` -/

/-- The six persistent stores the script mutates (derived report files are
pure functions of this state and are rebuilt from scratch each run). -/
structure State where
  invGen : List InvRecord
  invMkt : List InvRecord
  salesGen : List SaleRow
  salesMkt : List SaleRow
  prodRows : List PlainRow
  transferRows : List PlainRow
deriving DecidableEq, Repr

/-- The dispatch on `data["type"]` in `main` (the `venta_mkt` prefix is
tested before `venta`, as in the source). -/
def dispatch (s : State) (d : ParsedIssue) (txn : Str) : State :=
  match d.type with
  | .ventaMktMulti | .ventaMktSingle =>
    { s with
      salesMkt := append_sales s.salesMkt s.invMkt d.fecha d.items d.issue_url d.metodo_pago txn,
      invMkt := apply_stock s.invMkt d.items (-1) }
  | .abastoMktMulti | .abastoMktSingle =>
    { s with
      invGen := apply_stock s.invGen d.items (-1),
      invMkt := apply_stock s.invMkt d.items 1,
      transferRows := append_transfer_mkt s.transferRows d.fecha d.items d.issue_url txn }
  | .ventaMulti | .ventaSingle =>
    { s with
      salesGen := append_sales s.salesGen s.invGen d.fecha d.items d.issue_url d.metodo_pago txn,
      invGen := apply_stock s.invGen d.items (-1) }
  | .prodMulti | .prodSingle =>
    { s with
      prodRows := append_production s.prodRows d.fecha d.items d.issue_url txn,
      invGen := apply_stock s.invGen d.items 1 }
  | .noneT => s

/-- One invocation of `main`: no event means reports only; otherwise parse,
dispatch, and rebuild.  The boolean records that `build_reports` ran (it
does on every path).  The fresh transaction id generated by `new_txn_id`
is passed in as `txn`. -/
def mainStep (s : State) (ev : Option Event) (today txn : Str) : State × Bool :=
  match ev with
  | Option.none => (s, true)
  | some e => (dispatch s (parse_issue e today) txn, true)

/-! ## Report rollups (`build_reports` in both scripts) -/

/-- Model of `drop_duplicates(subset=key, keep="last")`: keep each row iff no later
row shares its key, preserving order. -/
def keepLastBy {α β : Type} [DecidableEq β] (key : α → β) : List α → List α
  | [] => []
  | r :: t =>
    if t.any (fun x => decide (key x = key r)) then keepLastBy key t
    else r :: keepLastBy key t

/-- A per-item rollup row (`ventas_por_item.csv`). -/
structure ItemAgg where
  item : Str
  cantidad : Int
  importe : ℚ
deriving DecidableEq, Repr

/-- A per-day rollup row (`ventas_por_dia.csv`). -/
structure DayAgg where
  fecha : Str
  cantidad : Int
  importe : ℚ
deriving DecidableEq, Repr

def sumQty (rows : List SaleRow) : Int := (rows.map SaleRow.cantidad).sum

def sumImp (rows : List SaleRow) : ℚ := (rows.map SaleRow.importe).sum

/-- Pandas `groupby` emits its group keys sorted ascending: the distinct keys in
sorted order. -/
def sortedKeysBy (key : SaleRow → Str) (rows : List SaleRow) : List Str :=
  List.insertionSort (· ≤ ·) (rows.map key).dedup

/-- Model of `sales.groupby("item")[["cantidad","importe"]].sum()`. -/
def rollup_item (rows : List SaleRow) : List ItemAgg :=
  (sortedKeysBy SaleRow.item rows).map (fun k =>
    ⟨k, sumQty (rows.filter (fun r => decide (r.item = k))),
      sumImp (rows.filter (fun r => decide (r.item = k)))⟩)

/-- Model of `sales.groupby("fecha")[["cantidad","importe"]].sum()`; the subsequent
`sort_values("fecha")` is the identity because the group keys are already
ascending. -/
def rollup_day (rows : List SaleRow) : List DayAgg :=
  (sortedKeysBy SaleRow.fecha rows).map (fun k =>
    ⟨k, sumQty (rows.filter (fun r => decide (r.fecha = k))),
      sumImp (rows.filter (fun r => decide (r.fecha = k)))⟩)

/-- The two-key sort `sort_values(["cantidad","importe"], ascending=False)`
of `process_issue.build_reports`: a total preorder (no item tie-break). -/
def aggTwoKey (a b : ItemAgg) : Prop :=
  b.cantidad < a.cantidad ∨ (a.cantidad = b.cantidad ∧ b.importe ≤ a.importe)

/-- The three-key sort
`sort_values(["cantidad","importe","item"], ascending=[False,False,True])`
of `build_reports.py`: a total order. -/
def aggThreeKey (a b : ItemAgg) : Prop :=
  b.cantidad < a.cantidad
    ∨ (a.cantidad = b.cantidad
        ∧ (b.importe < a.importe ∨ (a.importe = b.importe ∧ a.item ≤ b.item)))

instance : DecidableRel aggTwoKey := fun a b => by
  unfold aggTwoKey; infer_instance

instance : DecidableRel aggThreeKey := fun a b => by
  unfold aggThreeKey; infer_instance

/-- The per-item rollup of `process_issue.build_reports`: defensive dedup by
`source_id` (keep last), group by item, then the stable multi-key sort
(pandas `lexsort`, modelled by the stable `insertionSort`). -/
def by_item_process_issue (rows : List SaleRow) : List ItemAgg :=
  List.insertionSort aggTwoKey (rollup_item (keepLastBy SaleRow.source_id rows))

/-- The per-item rollup of the standalone `build_reports.py`: group by item,
then the stable sort with the explicit ascending-item tie-break. -/
def by_item_build_reports (rows : List SaleRow) : List ItemAgg :=
  List.insertionSort aggThreeKey (rollup_item rows)

/-- The per-day rollup of `process_issue.build_reports` (dedup, group,
already date-ascending). -/
def by_day_process_issue (rows : List SaleRow) : List DayAgg :=
  rollup_day (keepLastBy SaleRow.source_id rows)

/-! ## Definitions modelled from the spec's words (for comparison only) -/

/-- A transaction kind as named by the spec. -/
inductive TxKind
  | sale | production | transfer
deriving DecidableEq, Repr

/-- A ledger scope as named by the spec. -/
inductive Scope
  | general | market
deriving DecidableEq, Repr

/-- The kind/scope the code's transaction types dispatch to in `main`. -/
def kind_scope : TxType → Option (TxKind × Scope)
  | .ventaMulti | .ventaSingle => some (.sale, .general)
  | .prodMulti | .prodSingle => some (.production, .general)
  | .ventaMktMulti | .ventaMktSingle => some (.sale, .market)
  | .abastoMktMulti | .abastoMktSingle => some (.transfer, .market)
  | .noneT => Option.none

/-- Modelled from the spec: the dispatch order the claim asserts —
market-sale tag first, then market transfer/restock, then production, then
the generic sale tag guarded by the absence of market tags, else no-op. -/
def classify_spec_claimed (labels : List Str) : Option (TxKind × Scope) :=
  if labels.contains (str "venta-mercado") then some (.sale, .market)
  else if labels.contains (str "abasto-mercado")
      || labels.contains (str "traspaso-mercado") then some (.transfer, .market)
  else if labels.contains (str "produccion")
      || labels.contains (str "producción") then some (.production, .general)
  else if labels.contains (str "venta") && !labels.contains (str "venta-mercado")
      && !labels.contains (str "mercado") then some (.sale, .general)
  else Option.none

/-- The dispatch order the code actually implements, written as an explicit
first-match rule table over the label set. -/
def classify_code_order (labels : List Str) : Option (TxKind × Scope) :=
  if labels.contains (str "venta") && !labels.contains (str "venta-mercado")
      && !labels.contains (str "mercado") then some (.sale, .general)
  else if labels.contains (str "produccion")
      || labels.contains (str "producción") then some (.production, .general)
  else if labels.contains (str "venta-mercado")
      || (labels.contains (str "mercado") && labels.contains (str "venta")) then
    some (.sale, .market)
  else if labels.contains (str "abasto-mercado")
      || labels.contains (str "traspaso-mercado") then some (.transfer, .market)
  else Option.none

/-- Whitespace-separated tokens of a title (for the spec-modelled trailing
date pattern). -/
def wsTokens (cs : Str) : List Str := (splitOnChar ' ' cs).filter (fun t => !t.isEmpty)

/-- Modelled from the spec: "a trailing date pattern at the end of the event
title" — the last whitespace-separated token of the title, parsed against
the accepted date formats.  No such fallback exists in the source. -/
def title_trailing_date (title : Str) : Option Str :=
  match (wsTokens title).getLast? with
  | some tok => tryFormats tok
  | Option.none => Option.none

/-- Modelled from the spec: the date resolution chain the claim asserts —
labelled `Fecha` field, else trailing title date, else the creation
timestamp, else the current date. -/
def resolved_date_spec_claimed (ev : Event) (today : Str) : Str :=
  match tryFormats (pyStrip (grab_field ev.body (str "Fecha"))) with
  | some d => d
  | Option.none =>
    match title_trailing_date ev.title with
    | some d => d
    | Option.none => if ev.created_at.isEmpty then today else ev.created_at.take 10

/-! ## Concrete scenario constants and rollup totals -/

/-- An empty initial state (all six stores empty). -/
def emptyState : State := ⟨[], [], [], [], [], []⟩

/-- A fixed ambient current date used by the concrete scenarios. -/
def cToday : Str := str "2025-02-02"

/-- A production-tagged event whose items table holds one row `SKU-A | 3`. -/
def cProdEv : Event :=
  { title := [], body := str "Items\nSKU-A | 3", labels := [str "produccion"],
    html_url := str "u", created_at := str "2025-01-01T00:00:00Z" }

/-- The same production origin re-submitted with the quantity edited to 5. -/
def cProdEv5 : Event :=
  { title := [], body := str "Items\nSKU-A | 5", labels := [str "produccion"],
    html_url := str "u", created_at := str "2025-01-01T00:00:00Z" }

/-- A general-sale event: `Fecha: 2025-10-15`, one row `SKU-A | 3 | 10.00`. -/
def cSaleEv : Event :=
  { title := [], body := str "Fecha: 2025-10-15\nItems\nSKU-A | 3 | 10.00",
    labels := [str "venta"], html_url := str "u2",
    created_at := str "2025-01-01T00:00:00Z" }

/-- The general-sale event `cSaleEv` re-submitted with the quantity edited
to 5. -/
def cSaleEv5 : Event :=
  { title := [], body := str "Fecha: 2025-10-15\nItems\nSKU-A | 5 | 10.00",
    labels := [str "venta"], html_url := str "u2",
    created_at := str "2025-01-01T00:00:00Z" }

/-- An event carrying both the generic sale tag and the production tag. -/
def cSaleProdEv : Event :=
  { title := [], body := str "Items\nSKU-A | 3", labels := [str "venta", str "produccion"],
    html_url := str "u5", created_at := str "2025-01-01T00:00:00Z" }

/-- An event with no recognized transaction tag. -/
def cNoTagEv : Event :=
  { title := [], body := str "hola", labels := [str "otra"], html_url := str "u4",
    created_at := str "2025-01-01T00:00:00Z" }

/-- An event whose body has no `Fecha` field but whose title carries a
trailing date, and whose creation timestamp is `2026-01-02T03:04:05Z`. -/
def cTitleDateEv : Event :=
  { title := str "Venta 2025-10-01", body := str "Notas: hola", labels := [str "venta"],
    html_url := str "u6", created_at := str "2026-01-02T03:04:05Z" }

/-- An event carrying a parseable `Fecha: 05/10/2025` field. -/
def cFechaEv : Event :=
  { title := [], body := str "Fecha: 05/10/2025", labels := [],
    html_url := [], created_at := str "2025-01-01T00:00:00Z" }

/-- An event with no `Fecha` field at all. -/
def cNoFechaEv : Event :=
  { title := [], body := str "Notas: x", labels := [],
    html_url := [], created_at := str "2026-01-02T03:04:05Z" }

/-- An inventory record for `SKU-B`: stock 10, default price 5. -/
def cSkuBRec : InvRecord :=
  { item := str "SKU-B", descripcion := [], stock := 10, precio := some 5,
    product_id := str "SKU-B" }

/-- A starting state with `SKU-B` in stock 10 general / absent in market. -/
def cTransferState : State :=
  { invGen := [cSkuBRec], invMkt := [], salesGen := [], salesMkt := [],
    prodRows := [], transferRows := [] }

/-- A market-transfer event whose items table holds one row `SKU-B | 2`. -/
def cAbastoEv : Event :=
  { title := [], body := str "Items\nSKU-B | 2", labels := [str "traspaso-mercado"],
    html_url := str "u3", created_at := str "2025-01-01T00:00:00Z" }

/-- An event tagged `venta` whose body has no items table and a non-numeric
`Cantidad` field. -/
def cFallbackEv : Event :=
  { title := [], body := str "Item: SKU-C\nCantidad: muchos",
    labels := [str "venta"], html_url := str "u7",
    created_at := str "2025-01-01T00:00:00Z" }

/-- The same table-less, non-numeric-quantity body under the production
tag. -/
def cFallbackProdEv : Event :=
  { title := [], body := str "Item: SKU-C\nCantidad: muchos",
    labels := [str "produccion"], html_url := str "u8",
    created_at := str "2025-01-01T00:00:00Z" }

/-- The same table-less, non-numeric-quantity body under the market-sale
tag. -/
def cFallbackMktEv : Event :=
  { title := [], body := str "Item: SKU-C\nCantidad: muchos",
    labels := [str "venta-mercado"], html_url := str "u9",
    created_at := str "2025-01-01T00:00:00Z" }

/-- The same table-less, non-numeric-quantity body under the market
transfer/restock tag. -/
def cFallbackAbastoEv : Event :=
  { title := [], body := str "Item: SKU-C\nCantidad: muchos",
    labels := [str "abasto-mercado"], html_url := str "u10",
    created_at := str "2025-01-01T00:00:00Z" }

/-- Two concrete ledger rows that tie on quantity and amount. -/
def cRowA : SaleRow :=
  ⟨str "t", str "2025-01-01", str "AAA", 1, 5, 5, str "u", str "efectivo", str "u#0"⟩

/-- A second concrete ledger row, same quantity and amount, later item. -/
def cRowB : SaleRow :=
  ⟨str "t", str "2025-01-02", str "BBB", 1, 5, 5, str "u", str "efectivo", str "u#1"⟩

/-- Total quantity of a per-item rollup. -/
def sumAggQty (l : List ItemAgg) : Int := (l.map ItemAgg.cantidad).sum

/-- Total quantity of a per-day rollup. -/
def sumDayQty (l : List DayAgg) : Int := (l.map DayAgg.cantidad).sum

instance : IsTrans ItemAgg aggThreeKey := by
  constructor
  intro a b c hab hbc
  unfold aggThreeKey at *
  rcases hab with h1 | ⟨h1, hab2⟩
  · rcases hbc with g1 | ⟨g1, _⟩
    · exact Or.inl (by omega)
    · exact Or.inl (by omega)
  · rcases hbc with g1 | ⟨g1, hbc2⟩
    · exact Or.inl (by omega)
    · refine Or.inr ⟨by omega, ?_⟩
      rcases hab2 with h2 | ⟨h2, h3⟩
      · rcases hbc2 with g2 | ⟨g2, _⟩
        · exact Or.inl (by linarith)
        · exact Or.inl (by rw [← g2]; exact h2)
      · rcases hbc2 with g2 | ⟨g2, g3⟩
        · exact Or.inl (by rw [h2]; exact g2)
        · exact Or.inr ⟨h2.trans g2, le_trans h3 g3⟩

instance : IsTotal ItemAgg aggThreeKey := by
  constructor
  intro a b
  unfold aggThreeKey
  rcases lt_trichotomy a.cantidad b.cantidad with h | h | h
  · right; left; omega
  · rcases lt_trichotomy a.importe b.importe with g | g | g
    · right; right; exact ⟨h.symm, Or.inl g⟩
    · rcases le_total a.item b.item with k | k
      · left; right; exact ⟨h, Or.inr ⟨g, k⟩⟩
      · right; right; exact ⟨h.symm, Or.inr ⟨g.symm, k⟩⟩
    · left; right; exact ⟨h, Or.inl g⟩
  · left; left; omega

/-! ## Helper lemmas -/

/-- Upserting a batch and then a batch whose keys cover the first batch's
keys supersedes the first batch completely. -/
lemma upsert_upsert (L n1 n2 : List SaleRow)
    (h : ∀ k ∈ n1.map SaleRow.source_id, k ∈ n2.map SaleRow.source_id) :
    upsert_rows (upsert_rows L n1) n2 = upsert_rows L n2 := by
  unfold upsert_rows
  rw [List.filter_append, List.filter_filter]
  have h1 : n1.filter (fun r => decide (r.source_id ∉ n2.map SaleRow.source_id)) = [] := by
    rw [List.filter_eq_nil_iff]
    intro a ha
    simp only [decide_eq_true_eq, not_not]
    exact h _ (List.mem_map_of_mem _ ha)
  rw [h1, List.append_nil]
  congr 1
  apply List.filter_congr
  intro a _
  by_cases h2 : a.source_id ∈ n2.map SaleRow.source_id
  · simp [h2]
  · have h1m : a.source_id ∉ n1.map SaleRow.source_id := fun hmem => h2 (h _ hmem)
    simp [h2, h1m]

/-- Mapping a record transformation that preserves `item` and `precio`
preserves the default-price lookup. -/
lemma inv_price_map (f : InvRecord → InvRecord)
    (hitem : ∀ r, (f r).item = r.item) (hprecio : ∀ r, (f r).precio = r.precio)
    (inv : List InvRecord) (sku : Str) :
    inv_price (inv.map f) sku = inv_price inv sku := by
  induction inv with
  | nil => rfl
  | cons r t ih =>
    by_cases h : r.item = sku
    · unfold inv_price
      rw [List.map_cons, List.find?_cons_of_pos, List.find?_cons_of_pos]
      · simp [hprecio]
      · simpa using h
      · simpa [hitem] using h
    · unfold inv_price at ih ⊢
      rw [List.map_cons, List.find?_cons_of_neg, List.find?_cons_of_neg]
      · exact ih
      · simpa using h
      · simpa [hitem] using h

/-- One `apply_stock` step never changes the default-price lookup: stock
updates keep `precio`, and an auto-created record carries no price. -/
lemma inv_price_apply_stock_one (inv : List InvRecord) (sku' : Str) (δ : Int) (sku : Str) :
    inv_price (apply_stock_one inv sku' δ) sku = inv_price inv sku := by
  have hmap : ∀ l : List InvRecord,
      inv_price (l.map (fun r => if r.item = sku' then { r with stock := r.stock + δ } else r)) sku
        = inv_price l sku := by
    intro l
    apply inv_price_map
    · intro r; by_cases h : r.item = sku' <;> simp [h]
    · intro r; by_cases h : r.item = sku' <;> simp [h]
  unfold apply_stock_one
  by_cases hany : inv.any (fun r => decide (r.item = sku'))
  · rw [if_pos hany, hmap]
  · rw [if_neg hany, hmap]
    unfold inv_price
    rw [List.find?_append]
    rcases hfind : inv.find? (fun r => decide (r.item = sku)) with _ | r
    · rw [hfind, Option.none_or]
      by_cases hs : sku' = sku
      · simp [newInvRecord, List.find?, hs]
      · simp [List.find?, newInvRecord, hs]
    · rw [hfind, Option.or]

/-- Applying `apply_stock` never changes the default-price lookup. -/
lemma inv_price_apply_stock (inv : List InvRecord) (items : List RawItem)
    (sign : Int) (sku : Str) :
    inv_price (apply_stock inv items sign) sku = inv_price inv sku := by
  unfold apply_stock
  generalize clean_items items false = its
  induction its generalizing inv with
  | nil => rfl
  | cons it t ih =>
    rw [List.foldl_cons, ih, inv_price_apply_stock_one]

/-- Sale-row construction only consults the inventory through `inv_price`. -/
lemma saleRowsGo_congr (inv inv' : List InvRecord) (fecha url metodo txn : Str)
    (h : ∀ sku, inv_price inv' sku = inv_price inv sku) :
    ∀ (its : List RawItem) (i : Nat),
      saleRowsGo inv' fecha url metodo txn i its = saleRowsGo inv fecha url metodo txn i its := by
  intro its
  induction its with
  | nil => intro i; rfl
  | cons it t ih =>
    intro i
    rcases hp : parsePyFloatQ it.precioUnit with _ | q <;>
      simp [saleRowsGo, saleRowOf, hp, h, ih]

/-- The same holds for the whole batch of a sale event. -/
lemma sale_rows_of_congr (inv inv' : List InvRecord) (fecha : Str) (items : List RawItem)
    (url metodo txn : Str) (h : ∀ sku, inv_price inv' sku = inv_price inv sku) :
    sale_rows_of inv' fecha items url metodo txn = sale_rows_of inv fecha items url metodo txn :=
  saleRowsGo_congr inv inv' fecha url metodo txn h _ 0

/-- The `source_id` keys of a sale batch depend only on the origin URL and
the ordinal positions. -/
lemma saleRowsGo_keys (inv : List InvRecord) (fecha url metodo txn : Str) :
    ∀ (its : List RawItem) (i : Nat),
      (saleRowsGo inv fecha url metodo txn i its).map SaleRow.source_id
        = (List.range' i its.length).map (fun j => url ++ '#' :: natToStr j) := by
  intro its
  induction its with
  | nil => intro i; rfl
  | cons it t ih =>
    intro i
    simp only [saleRowsGo, List.map_cons, List.length_cons, List.range', ih]
    rfl

/-- Applying the same sale event's batch twice (with possibly different
transaction ids, and against the inventory as mutated by the first
application) collapses to a single application. -/
lemma append_sales_twice (L : List SaleRow) (inv inv' : List InvRecord) (fecha : Str)
    (items : List RawItem) (url metodo t1 t2 : Str)
    (h : ∀ sku, inv_price inv' sku = inv_price inv sku) :
    append_sales (append_sales L inv fecha items url metodo t1) inv' fecha items url metodo t2
      = append_sales L inv fecha items url metodo t2 := by
  unfold append_sales
  by_cases he : (clean_items items true).isEmpty
  · simp [he]
  · simp only [he, Bool.false_eq_true, if_false]
    rw [sale_rows_of_congr inv inv' fecha items url metodo t2 h]
    apply upsert_upsert
    unfold sale_rows_of
    rw [saleRowsGo_keys, saleRowsGo_keys]
    exact fun k hk => hk

/-- The parser `parse_issue` always reports the event's `html_url` as the origin. -/
lemma parse_issue_url (ev : Event) (today : Str) :
    (parse_issue ev today).issue_url = ev.html_url := by
  unfold parse_issue
  split_ifs <;> simp [apply_ite ParsedIssue.issue_url]

/-- The item/quantity content of a sale batch is exactly the cleaned items. -/
lemma saleRowsGo_item_qty (inv : List InvRecord) (fecha url metodo txn : Str) :
    ∀ (its : List RawItem) (i : Nat),
      (saleRowsGo inv fecha url metodo txn i its).map (fun r => (r.item, r.cantidad))
        = its.map (fun it => (it.item, it.cantidad)) := by
  intro its
  induction its with
  | nil => intro i; rfl
  | cons it t ih => intro i; simp [saleRowsGo, saleRowOf, ih]

/-- Superseding a sale batch by a same-origin batch with at least as many
cleaned items collapses to a single application of the second batch. -/
lemma append_sales_super (L : List SaleRow) (inv inv' : List InvRecord)
    (f1 f2 : Str) (its1 its2 : List RawItem) (url m1 m2 t1 t2 : Str)
    (h : ∀ sku, inv_price inv' sku = inv_price inv sku)
    (hlen : (clean_items its1 true).length ≤ (clean_items its2 true).length) :
    append_sales (append_sales L inv f1 its1 url m1 t1) inv' f2 its2 url m2 t2
      = append_sales L inv f2 its2 url m2 t2 := by
  by_cases he2 : (clean_items its2 true).isEmpty
  · have he1 : (clean_items its1 true).isEmpty := by
      rw [List.isEmpty_iff_length_eq_zero] at he2 ⊢
      omega
    unfold append_sales
    simp [he1, he2]
  · by_cases he1 : (clean_items its1 true).isEmpty
    · unfold append_sales
      simp [he1, he2, sale_rows_of_congr inv inv' f2 its2 url m2 t2 h]
    · unfold append_sales
      simp only [he1, he2, Bool.false_eq_true, if_false]
      rw [sale_rows_of_congr inv inv' f2 its2 url m2 t2 h]
      apply upsert_upsert
      unfold sale_rows_of
      rw [saleRowsGo_keys, saleRowsGo_keys]
      intro k hk
      simp only [List.mem_map, List.mem_range'_1] at hk ⊢
      obtain ⟨j, hj, hkj⟩ := hk
      exact ⟨j, by omega, hkj⟩

/-- Unfolding `dispatch` on a general-sale classification. -/
lemma dispatch_venta (s : State) (d : ParsedIssue) (txn : Str)
    (h : d.type = .ventaMulti ∨ d.type = .ventaSingle) :
    dispatch s d txn = { s with
      salesGen := append_sales s.salesGen s.invGen d.fecha d.items d.issue_url d.metodo_pago txn,
      invGen := apply_stock s.invGen d.items (-1) } := by
  rcases h with h | h <;> · unfold dispatch; rw [h]

/-- Unfolding `dispatch` on a market-sale classification. -/
lemma dispatch_venta_mkt (s : State) (d : ParsedIssue) (txn : Str)
    (h : d.type = .ventaMktMulti ∨ d.type = .ventaMktSingle) :
    dispatch s d txn = { s with
      salesMkt := append_sales s.salesMkt s.invMkt d.fecha d.items d.issue_url d.metodo_pago txn,
      invMkt := apply_stock s.invMkt d.items (-1) } := by
  rcases h with h | h <;> · unfold dispatch; rw [h]

/-- Unfolding `dispatch` on a production classification. -/
lemma dispatch_prod (s : State) (d : ParsedIssue) (txn : Str)
    (h : d.type = .prodMulti ∨ d.type = .prodSingle) :
    dispatch s d txn = { s with
      prodRows := append_production s.prodRows d.fecha d.items d.issue_url txn,
      invGen := apply_stock s.invGen d.items 1 } := by
  rcases h with h | h <;> · unfold dispatch; rw [h]

/-- Unfolding `dispatch` on a market-transfer classification. -/
lemma dispatch_abasto (s : State) (d : ParsedIssue) (txn : Str)
    (h : d.type = .abastoMktMulti ∨ d.type = .abastoMktSingle) :
    dispatch s d txn = { s with
      invGen := apply_stock s.invGen d.items (-1),
      invMkt := apply_stock s.invMkt d.items 1,
      transferRows := append_transfer_mkt s.transferRows d.fecha d.items d.issue_url txn } := by
  rcases h with h | h <;> · unfold dispatch; rw [h]

/-! ## Concrete events used by witnesses and counterexamples -/






/-! ## C1 -/

/-- C1 (counterexample): applying the byte-identical production event
`cProdEv` (items row `SKU-A | 3`) twice — even with the same transaction
id — does not yield the state of applying it once: the production ledger
holds two copies of the row and the stock of `SKU-A` is 6, not 3. -/
theorem C1_idempotence_counterexample :
    (mainStep ((mainStep emptyState (some cProdEv) cToday (str "P1")).1)
        (some cProdEv) cToday (str "P1")).1
      ≠ (mainStep emptyState (some cProdEv) cToday (str "P1")).1
    ∧ ((mainStep ((mainStep emptyState (some cProdEv) cToday (str "P1")).1)
        (some cProdEv) cToday (str "P1")).1).prodRows.length = 2
    ∧ ((mainStep emptyState (some cProdEv) cToday (str "P1")).1).prodRows.length = 1
    ∧ stock_of ((mainStep ((mainStep emptyState (some cProdEv) cToday (str "P1")).1)
        (some cProdEv) cToday (str "P1")).1).invGen (str "SKU-A") = 6
    ∧ stock_of ((mainStep emptyState (some cProdEv) cToday (str "P1")).1).invGen
        (str "SKU-A") = 3 := by
  refine ⟨by decide, by decide, by decide, by decide, by decide⟩

/-- C1 (amended): only the sale ledgers are idempotent under re-delivery of
the same origin event.  For a general-sale (resp. market-sale) event,
applying the event twice — with any transaction ids, the second application
seeing the inventory already mutated by the first — leaves the general
(resp. market) sales ledger in exactly the state of a single application;
the inventory stock deltas are re-applied and the production and transfer
ledgers receive duplicate rows (see the counterexample). -/
theorem C1_sales_ledger_idempotence (s : State) (ev : Event) (today t1 t2 : Str) :
    (((parse_issue ev today).type = .ventaMulti ∨ (parse_issue ev today).type = .ventaSingle) →
      ((mainStep ((mainStep s (some ev) today t1).1) (some ev) today t2).1).salesGen
        = ((mainStep s (some ev) today t2).1).salesGen)
    ∧ (((parse_issue ev today).type = .ventaMktMulti
          ∨ (parse_issue ev today).type = .ventaMktSingle) →
      ((mainStep ((mainStep s (some ev) today t1).1) (some ev) today t2).1).salesMkt
        = ((mainStep s (some ev) today t2).1).salesMkt) := by
  constructor
  · intro h
    show ((dispatch (dispatch s (parse_issue ev today) t1) (parse_issue ev today) t2)).salesGen
      = (dispatch s (parse_issue ev today) t2).salesGen
    rw [dispatch_venta _ _ _ h, dispatch_venta _ _ _ h, dispatch_venta _ _ _ h]
    exact append_sales_twice _ _ _ _ _ _ _ _ _
      (fun sku => inv_price_apply_stock s.invGen (parse_issue ev today).items (-1) sku)
  · intro h
    show ((dispatch (dispatch s (parse_issue ev today) t1) (parse_issue ev today) t2)).salesMkt
      = (dispatch s (parse_issue ev today) t2).salesMkt
    rw [dispatch_venta_mkt _ _ _ h, dispatch_venta_mkt _ _ _ h, dispatch_venta_mkt _ _ _ h]
    exact append_sales_twice _ _ _ _ _ _ _ _ _
      (fun sku => inv_price_apply_stock s.invMkt (parse_issue ev today).items (-1) sku)

/-- C1 (witness): the amended idempotence at the concrete general-sale event
`cSaleEv`, with distinct transaction ids for the two deliveries. -/
theorem C1_sales_ledger_idempotence_witness :
    ((mainStep ((mainStep emptyState (some cSaleEv) cToday (str "S1")).1)
        (some cSaleEv) cToday (str "S2")).1).salesGen
      = ((mainStep emptyState (some cSaleEv) cToday (str "S2")).1).salesGen :=
  (C1_sales_ledger_idempotence emptyState cSaleEv cToday (str "S1") (str "S2")).1
    (Or.inl (by decide))

/-! ## C2 -/


/-- C2 (counterexample): the production ledger is written without any
upsert.  Applying the production event `cProdEv` (`SKU-A | 3`) and then the
modified same-origin version `cProdEv5` (`SKU-A | 5`) leaves TWO production
ledger entries for the item — quantities 3 and 5 — not exactly one entry
with the latest quantity. -/
theorem C2_upsert_counterexample :
    ((mainStep ((mainStep emptyState (some cProdEv) cToday (str "P1")).1)
        (some cProdEv5) cToday (str "P2")).1).prodRows.map PlainRow.cantidad = [3, 5]
    ∧ ((mainStep ((mainStep emptyState (some cProdEv) cToday (str "P1")).1)
        (some cProdEv5) cToday (str "P2")).1).prodRows.length = 2 := by
  refine ⟨by decide, by decide⟩

/-- C2 (amended): the delete-then-insert upsert holds for the sale ledgers
only, and removal is keyed on the incoming batch's `source_id`s (origin URL
plus item ordinal), not on the origin as a whole.  Hence for two general-sale
events of the same origin where the second cleans to at least as many items,
applying the first and then the second leaves the general sales ledger
exactly as a single application of the second: one entry per item ordinal,
with only the latest quantities.  Production and transfer ledgers are plain
appends with no supersession (see the counterexample). -/
theorem C2_sales_upsert_convergence (s : State) (ev1 ev2 : Event) (today t1 t2 : Str)
    (h1 : (parse_issue ev1 today).type = .ventaMulti
        ∨ (parse_issue ev1 today).type = .ventaSingle)
    (h2 : (parse_issue ev2 today).type = .ventaMulti
        ∨ (parse_issue ev2 today).type = .ventaSingle)
    (hurl : ev1.html_url = ev2.html_url)
    (hlen : (clean_items (parse_issue ev1 today).items true).length
        ≤ (clean_items (parse_issue ev2 today).items true).length) :
    ((mainStep ((mainStep s (some ev1) today t1).1) (some ev2) today t2).1).salesGen
      = ((mainStep s (some ev2) today t2).1).salesGen
    ∧ (s.salesGen = [] →
        ((mainStep ((mainStep s (some ev1) today t1).1) (some ev2) today t2).1).salesGen.map
            (fun r => (r.item, r.cantidad))
          = (clean_items (parse_issue ev2 today).items true).map
              (fun it => (it.item, it.cantidad))) := by
  have hmain :
      ((mainStep ((mainStep s (some ev1) today t1).1) (some ev2) today t2).1).salesGen
        = ((mainStep s (some ev2) today t2).1).salesGen := by
    show ((dispatch (dispatch s (parse_issue ev1 today) t1) (parse_issue ev2 today) t2)).salesGen
      = (dispatch s (parse_issue ev2 today) t2).salesGen
    rw [dispatch_venta _ _ _ h1, dispatch_venta _ _ _ h2, dispatch_venta _ _ _ h2]
    have hu : (parse_issue ev1 today).issue_url = (parse_issue ev2 today).issue_url := by
      rw [parse_issue_url, parse_issue_url, hurl]
    rw [hu]
    exact append_sales_super _ _ _ _ _ _ _ _ _ _ _ _
      (fun sku => inv_price_apply_stock s.invGen (parse_issue ev1 today).items (-1) sku) hlen
  refine ⟨hmain, fun hsg => ?_⟩
  rw [hmain]
  show (dispatch s (parse_issue ev2 today) t2).salesGen.map (fun r => (r.item, r.cantidad)) = _
  rw [dispatch_venta _ _ _ h2]
  by_cases he : (clean_items (parse_issue ev2 today).items true).isEmpty
  · have : clean_items (parse_issue ev2 today).items true = [] :=
      List.isEmpty_iff.mp he
    unfold append_sales
    simp [he, hsg, this]
  · unfold append_sales
    simp only [he, Bool.false_eq_true, if_false]
    rw [hsg]
    show (upsert_rows [] _).map (fun r => (r.item, r.cantidad)) = _
    unfold upsert_rows
    rw [List.filter_nil, List.nil_append]
    exact saleRowsGo_item_qty _ _ _ _ _ _ 0

/-- C2 (witness): the amended convergence at the concrete origin `u2` —
`SKU-A | 3 | 10.00` followed by the edited `SKU-A | 5 | 10.00` — whose
resulting ledger holds exactly one row for `SKU-A`, with quantity 5. -/
theorem C2_sales_upsert_convergence_witness :
    ((mainStep ((mainStep emptyState (some cSaleEv) cToday (str "S1")).1)
        (some cSaleEv5) cToday (str "S2")).1).salesGen
      = ((mainStep emptyState (some cSaleEv5) cToday (str "S2")).1).salesGen
    ∧ ((mainStep ((mainStep emptyState (some cSaleEv) cToday (str "S1")).1)
        (some cSaleEv5) cToday (str "S2")).1).salesGen.map (fun r => (r.item, r.cantidad))
      = [(str "SKU-A", 5)] := by
  have h := C2_sales_upsert_convergence emptyState cSaleEv cSaleEv5 cToday (str "S1") (str "S2")
    (Or.inl (by decide)) (Or.inl (by decide)) (by decide) (by decide)
  refine ⟨h.1, ?_⟩
  rw [h.2 rfl]
  decide

/-! ## C3 -/

/-- The classification the code computes agrees with the explicit rule table
`classify_code_order` on every event. -/
lemma parse_issue_kind (ev : Event) (today : Str) :
    kind_scope (parse_issue ev today).type = classify_code_order (labelsOf ev) := by
  unfold parse_issue classify_code_order
  split_ifs <;>
    simp only [apply_ite ParsedIssue.type, apply_ite kind_scope, kind_scope] <;>
    first
      | rfl
      | (split_ifs <;> rfl)



/-- C3 (counterexample): on the label set `{venta, produccion}` the code
classifies the event as a general-scope SALE (the guarded generic-sale
branch is tested first), while the claimed dispatch order — market sale,
transfer, production, generic sale — yields PRODUCTION. -/
theorem C3_dispatch_order_counterexample :
    kind_scope (parse_issue cSaleProdEv cToday).type = some (TxKind.sale, Scope.general)
    ∧ classify_spec_claimed (labelsOf cSaleProdEv) = some (TxKind.production, Scope.general)
    ∧ kind_scope (parse_issue cSaleProdEv cToday).type
        ≠ classify_spec_claimed (labelsOf cSaleProdEv) := by
  refine ⟨by decide, by decide, by decide⟩

/-- C3 (amended): the classifier resolves kind and scope by first match in
the order the code implements: generic sale tag (guarded by the absence of
the market-sale and market tags) first; then production; then market sale
(market-sale tag, or market and sale tags together, mirrored on nothing);
then market transfer/restock (which mirrors a stock decrement onto scope
general); the absence of any recognized tag yields a no-op that leaves
every ledger and inventory untouched while still rebuilding the reports. -/
theorem C3_classifier_code_order (ev : Event) (today : Str) :
    kind_scope (parse_issue ev today).type = classify_code_order (labelsOf ev)
    ∧ (classify_code_order (labelsOf ev) = Option.none →
        ∀ s txn, mainStep s (some ev) today txn = (s, true)) := by
  refine ⟨parse_issue_kind ev today, fun hn s txn => ?_⟩
  have ht : kind_scope (parse_issue ev today).type = Option.none := by
    rw [parse_issue_kind]; exact hn
  have hT : (parse_issue ev today).type = TxType.noneT := by
    rcases h : (parse_issue ev today).type <;> simp_all [kind_scope]
  show (dispatch s (parse_issue ev today) txn, true) = (s, true)
  unfold dispatch
  rw [hT]

/-- C3 (witness): the no-tag event `cNoTagEv` is classified as a no-op and
leaves the state unchanged with the reports still rebuilt. -/
theorem C3_classifier_code_order_witness :
    kind_scope (parse_issue cNoTagEv cToday).type = classify_code_order (labelsOf cNoTagEv)
    ∧ mainStep emptyState (some cNoTagEv) cToday (str "X") = (emptyState, true) :=
  ⟨(C3_classifier_code_order cNoTagEv cToday).1,
    (C3_classifier_code_order cNoTagEv cToday).2 (by decide) emptyState (str "X")⟩

/-! ## C4 -/

/-- C4 (counterexample): for a price-bearing (sale) parse, the row
`SKU-A | 3` — whose first cell passes the product-code rule and whose second
cell parses as the positive integer 3 — yields NO line item: the third cell
is not optional for price-bearing transactions. -/
theorem C4_items_row_counterexample :
    parse_items_table (str "Items\nSKU-A | 3") true = []
    ∧ parseRow true (str "SKU-A | 3") = Option.none
    ∧ is_valid_sku (str "SKU-A") = true
    ∧ parsePyInt (str "3") = some 3
    ∧ parse_items_table (str "Items\nSKU-A | 3") false
        = [⟨str "SKU-A", 3, []⟩] := by
  refine ⟨by decide, by decide, by decide, by decide, by decide⟩

/-- C4 (amended): a pipe-delimited row yields a LineItem iff it is not a
header/separator row (lowercase head cells containing both `sku` and
`cantidad`, or a leading `---`), its first cell passes the product-code
rule, its second cell parses as a positive integer, and — for price-bearing
transactions only — it has at least three cells, the third being taken as
the literal unit price string (possibly empty); for kinds without price the
third cell is ignored and two cells suffice. -/
theorem C4_items_row_characterization (ln : Str) :
    (∀ sku qty, rowParts ln = [sku, qty] → parseRow true ln = Option.none)
    ∧ (∀ sku qty price rest q, rowParts ln = sku :: qty :: price :: rest →
        rowSkipped ln = false → is_valid_sku sku = true → parsePyInt qty = some q →
        0 < q → parseRow true ln = some ⟨sku, q, price⟩)
    ∧ (∀ sku qty rest q, rowParts ln = sku :: qty :: rest →
        rowSkipped ln = false → is_valid_sku sku = true → parsePyInt qty = some q →
        0 < q → parseRow false ln = some ⟨sku, q, []⟩)
    ∧ (∀ hp it, parseRow hp ln = some it →
        rowSkipped ln = false ∧ is_valid_sku it.item = true ∧ 0 < it.cantidad
          ∧ ∃ qty rest, rowParts ln = it.item :: qty :: rest
              ∧ parsePyInt qty = some it.cantidad) := by
  refine ⟨?_, ?_, ?_, ?_⟩
  · intro sku qty hp
    unfold parseRow
    simp only [hp]
    split_ifs <;> rfl
  · intro sku qty price rest q hp hskip hsku hq hpos
    unfold parseRow
    simp only [hp, hskip, hsku, hq, hpos, Bool.false_eq_true, if_false, if_true]
  · intro sku qty rest q hp hskip hsku hq hpos
    unfold parseRow
    simp only [hp, hskip, hsku, hq, hpos, Bool.false_eq_true, if_false, if_true]
  · intro hp it hsome
    unfold parseRow at hsome
    have hskip : rowSkipped ln = false := by
      rcases h : rowSkipped ln
      · rfl
      · simp only [h, if_true] at hsome
        exact Option.noConfusion hsome
    simp only [hskip, Bool.false_eq_true, if_false] at hsome
    refine ⟨hskip, ?_⟩
    cases hp
    · simp only [Bool.false_eq_true, if_false] at hsome
      rcases hparts : rowParts ln with _ | ⟨sku, rest1⟩
      · simp only [hparts] at hsome
        exact Option.noConfusion hsome
      rcases rest1 with _ | ⟨qty, rest⟩
      · simp only [hparts] at hsome
        exact Option.noConfusion hsome
      simp only [hparts] at hsome
      rcases hsku : is_valid_sku sku
      · simp only [hsku, Bool.false_eq_true, if_false] at hsome
        exact Option.noConfusion hsome
      simp only [hsku, if_true] at hsome
      rcases hq : parsePyInt qty with _ | q
      · simp only [hq] at hsome
        exact Option.noConfusion hsome
      simp only [hq] at hsome
      by_cases hpos : 0 < q
      · rw [if_pos hpos] at hsome
        obtain rfl := (Option.some_inj.mp hsome).symm
        exact ⟨hsku, hpos, qty, rest, rfl, hq⟩
      · rw [if_neg hpos] at hsome
        exact Option.noConfusion hsome
    · simp only [if_true] at hsome
      rcases hparts : rowParts ln with _ | ⟨sku, rest1⟩
      · simp only [hparts] at hsome
        exact Option.noConfusion hsome
      rcases rest1 with _ | ⟨qty, rest2⟩
      · simp only [hparts] at hsome
        exact Option.noConfusion hsome
      rcases rest2 with _ | ⟨price, rest⟩
      · simp only [hparts] at hsome
        exact Option.noConfusion hsome
      simp only [hparts] at hsome
      rcases hsku : is_valid_sku sku
      · simp only [hsku, Bool.false_eq_true, if_false] at hsome
        exact Option.noConfusion hsome
      simp only [hsku, if_true] at hsome
      rcases hq : parsePyInt qty with _ | q
      · simp only [hq] at hsome
        exact Option.noConfusion hsome
      simp only [hq] at hsome
      by_cases hpos : 0 < q
      · rw [if_pos hpos] at hsome
        obtain rfl := (Option.some_inj.mp hsome).symm
        exact ⟨hsku, hpos, qty, price :: rest, rfl, hq⟩
      · rw [if_neg hpos] at hsome
        exact Option.noConfusion hsome

/-- C4 (witness): the amended characterization at the concrete rows
`SKU-A | 3 | 10.00` (priced) and `SKU-B | 2` (unpriced). -/
theorem C4_items_row_characterization_witness :
    parseRow true (str "SKU-A | 3 | 10.00") = some ⟨str "SKU-A", 3, str "10.00"⟩
    ∧ parseRow false (str "SKU-B | 2") = some ⟨str "SKU-B", 2, []⟩
    ∧ parseRow true (str "SKU-A | 3") = Option.none := by
  refine ⟨?_, ?_, ?_⟩
  · exact (C4_items_row_characterization (str "SKU-A | 3 | 10.00")).2.1
      (str "SKU-A") (str "3") (str "10.00") [] 3 (by decide) (by decide) (by decide)
      (by decide) (by decide)
  · exact (C4_items_row_characterization (str "SKU-B | 2")).2.2.1
      (str "SKU-B") (str "2") [] 2 (by decide) (by decide) (by decide) (by decide)
      (by decide)
  · exact (C4_items_row_characterization (str "SKU-A | 3")).1
      (str "SKU-A") (str "3") (by decide)

/-! ## C5 -/

/-- C5 (confirmed): for every sale ledger row written (both scopes build
their rows with `saleRowOf`), the resolved unit price is the row's explicit
price when it parses as a number, else the matching inventory record's
default price when that record exists and has one, else zero; and the
stored amount is quantity times the resolved price rounded to two
decimals. -/
theorem C5_price_resolution (inv : List InvRecord) (fecha url metodo txn : Str)
    (idx : Nat) (it : RawItem) :
    (∀ p, parsePyFloatQ it.precioUnit = some p →
        (saleRowOf inv fecha url metodo txn idx it).precio_unit = round2 p
        ∧ (saleRowOf inv fecha url metodo txn idx it).importe
            = round2 ((it.cantidad : ℚ) * p))
    ∧ (parsePyFloatQ it.precioUnit = Option.none →
        (∀ r, inv.find? (fun r' => decide (r'.item = it.item)) = some r →
            (saleRowOf inv fecha url metodo txn idx it).precio_unit
                = round2 (r.precio.getD 0)
            ∧ (saleRowOf inv fecha url metodo txn idx it).importe
                = round2 ((it.cantidad : ℚ) * r.precio.getD 0))
        ∧ (inv.find? (fun r' => decide (r'.item = it.item)) = Option.none →
            (saleRowOf inv fecha url metodo txn idx it).precio_unit = 0
            ∧ (saleRowOf inv fecha url metodo txn idx it).importe = 0)) := by
  refine ⟨fun p hp => ?_, fun hnone => ⟨fun r hr => ?_, fun hr => ?_⟩⟩
  · unfold saleRowOf
    simp only [hp]
    exact ⟨by trivial, by trivial⟩
  · unfold saleRowOf inv_price
    simp only [hnone, hr]
    exact ⟨by trivial, by trivial⟩
  · unfold saleRowOf inv_price
    simp only [hnone, hr]
    constructor
    · show round2 0 = 0
      decide
    · show round2 ((it.cantidad : ℚ) * 0) = 0
      rw [mul_zero]
      decide

/-- C5 (witness): the claim's concrete scenario — the row
`SKU-A | 3 | 10.00` yields unit price `10.00` and amount `30.00`. -/
theorem C5_price_resolution_witness :
    (saleRowOf [] (str "2025-10-15") (str "u2") (str "efectivo") (str "S") 0
        ⟨str "SKU-A", 3, str "10.00"⟩).precio_unit = 10
    ∧ (saleRowOf [] (str "2025-10-15") (str "u2") (str "efectivo") (str "S") 0
        ⟨str "SKU-A", 3, str "10.00"⟩).importe = 30 := by
  have h := (C5_price_resolution [] (str "2025-10-15") (str "u2") (str "efectivo") (str "S") 0
    ⟨str "SKU-A", 3, str "10.00"⟩).1 10 (by decide)
  exact ⟨h.1.trans (by decide), h.2.trans (by decide)⟩

/-! ## C6 -/

/-- The parser `parse_issue` resolves the date through `safe_parse_date` over the
labelled `Fecha` field in every branch. -/
lemma parse_issue_fecha (ev : Event) (today : Str) :
    (parse_issue ev today).fecha
      = safe_parse_date (grab_field ev.body (str "Fecha")) ev.created_at today := by
  unfold parse_issue
  split_ifs <;> simp [apply_ite ParsedIssue.fecha]


/-- C6 (counterexample): the source has no title fallback in the date
chain.  For `cTitleDateEv` the claimed chain resolves the trailing title
date `2025-10-01`, while the code goes directly from the absent `Fecha`
field to the creation timestamp and yields `2026-01-02`. -/
theorem C6_date_chain_counterexample :
    (parse_issue cTitleDateEv cToday).fecha = str "2026-01-02"
    ∧ resolved_date_spec_claimed cTitleDateEv cToday = str "2025-10-01"
    ∧ (parse_issue cTitleDateEv cToday).fecha
        ≠ resolved_date_spec_claimed cTitleDateEv cToday := by
  refine ⟨by decide, by decide, by decide⟩

/-- C6 (amended): the transaction date is resolved by this chain and never
fatally: the line-start labelled `Fecha` field (bold markup optional,
case-insensitive) parsed against the accepted formats; if absent or
unparseable, the first ten characters of the event's creation timestamp;
else the current date.  There is no title fallback. -/
theorem C6_date_resolution_chain (ev : Event) (today : Str) :
    (parse_issue ev today).fecha
      = safe_parse_date (grab_field ev.body (str "Fecha")) ev.created_at today
    ∧ (∀ d, tryFormats (pyStrip (grab_field ev.body (str "Fecha"))) = some d →
        (parse_issue ev today).fecha = d)
    ∧ (tryFormats (pyStrip (grab_field ev.body (str "Fecha"))) = Option.none →
        ev.created_at ≠ [] → (parse_issue ev today).fecha = ev.created_at.take 10)
    ∧ (tryFormats (pyStrip (grab_field ev.body (str "Fecha"))) = Option.none →
        ev.created_at = [] → (parse_issue ev today).fecha = today) := by
  refine ⟨parse_issue_fecha ev today, fun d hd => ?_, fun hn hc => ?_, fun hn hc => ?_⟩
  · rw [parse_issue_fecha]
    unfold safe_parse_date
    rw [hd]
  · rw [parse_issue_fecha]
    unfold safe_parse_date
    rw [hn]
    have : ev.created_at.isEmpty = false := by
      rcases h : ev.created_at
      · exact absurd h hc
      · rfl
    rw [this]
    rfl
  · rw [parse_issue_fecha]
    unfold safe_parse_date
    rw [hn, hc]
    rfl



/-- C6 (witness): the chain at two concrete events — a parseable
`Fecha: 05/10/2025` field canonicalised to `2025-10-05`, and an absent
field falling back to the creation timestamp prefix. -/
theorem C6_date_resolution_chain_witness :
    (parse_issue cFechaEv cToday).fecha = str "2025-10-05"
    ∧ (parse_issue cNoFechaEv cToday).fecha = str "2026-01-02" := by
  constructor
  · exact (C6_date_resolution_chain cFechaEv cToday).2.1 (str "2025-10-05") (by decide)
  · exact (C6_date_resolution_chain cNoFechaEv cToday).2.2.1 (by decide) (by decide)

/-! ## C8 -/

/-- Updating the stock of every record matching the SKU changes the
first-match read by exactly the delta, provided some record matches. -/
lemma stock_of_map_upd (sku : Str) (δ : Int) :
    ∀ inv : List InvRecord, inv.any (fun r => decide (r.item = sku)) = true →
      stock_of (inv.map (fun r => if r.item = sku then { r with stock := r.stock + δ } else r)) sku
        = stock_of inv sku + δ := by
  intro inv
  induction inv with
  | nil => intro h; cases h
  | cons r t ih =>
    intro hany
    by_cases h : r.item = sku
    · unfold stock_of
      rw [List.map_cons, if_pos h, List.find?_cons_of_pos, List.find?_cons_of_pos]
      · simpa using h
      · simpa using h
    · have hany' : t.any (fun r => decide (r.item = sku)) = true := by
        rcases List.any_eq_true.mp hany with ⟨x, hx, hpx⟩
        rcases List.mem_cons.mp hx with rfl | hx'
        · exact absurd (of_decide_eq_true hpx) h
        · exact List.any_eq_true.mpr ⟨x, hx', hpx⟩
      unfold stock_of at ih ⊢
      rw [List.map_cons, if_neg h, List.find?_cons_of_neg, List.find?_cons_of_neg]
      · exact ih hany'
      · simpa using h
      · simpa using h

/-- One `apply_stock` step adds exactly the delta to the (first-match) stock
of its SKU, auto-creating the record at stock 0 when absent. -/
lemma stock_of_apply_stock_one (inv : List InvRecord) (sku : Str) (δ : Int) :
    stock_of (apply_stock_one inv sku δ) sku = stock_of inv sku + δ := by
  unfold apply_stock_one
  by_cases hany : inv.any (fun r => decide (r.item = sku)) = true
  · rw [if_pos hany, stock_of_map_upd sku δ inv hany]
  · rw [if_neg hany]
    have hnone : ∀ x ∈ inv, ¬ (fun r => decide (r.item = sku)) x = true := by
      intro x hx hpx
      exact hany (List.any_eq_true.mpr ⟨x, hx, hpx⟩)
    have h0 : stock_of inv sku = 0 := by
      unfold stock_of
      rw [List.find?_eq_none.mpr hnone]
    rw [h0]
    unfold stock_of
    rw [List.map_append, List.find?_append]
    have hmapnone :
        (inv.map (fun r => if r.item = sku then { r with stock := r.stock + δ } else r)).find?
          (fun r => decide (r.item = sku)) = Option.none := by
      rw [List.find?_eq_none]
      intro x hx
      rcases List.mem_map.mp hx with ⟨r, hr, rfl⟩
      have : r.item ≠ sku := fun hc => hnone r hr (decide_eq_true hc)
      simp [this]
    rw [hmapnone, Option.none_or]
    simp [newInvRecord]




/-- C8 (confirmed): for a transfer-tagged event whose cleaned item list is
the single valid item `(sku, q)`, the general-scope stock of that product
decreases by `q`, the market-scope stock increases by `q`, and exactly one
entry is appended to the dedicated transfer ledger — whose row type
(`PlainRow`) carries no price column. -/
theorem C8_transfer_effects (s : State) (ev : Event) (today txn sku : Str) (q : Int)
    (htype : (parse_issue ev today).type = .abastoMktMulti
        ∨ (parse_issue ev today).type = .abastoMktSingle)
    (hclean : clean_items (parse_issue ev today).items false = [⟨sku, q, []⟩]) :
    stock_of ((mainStep s (some ev) today txn).1).invGen sku = stock_of s.invGen sku - q
    ∧ stock_of ((mainStep s (some ev) today txn).1).invMkt sku = stock_of s.invMkt sku + q
    ∧ ((mainStep s (some ev) today txn).1).transferRows
        = s.transferRows ++ [⟨txn, (parse_issue ev today).fecha, sku, q, ev.html_url⟩] := by
  have hd : (mainStep s (some ev) today txn).1 = dispatch s (parse_issue ev today) txn := rfl
  rw [hd, dispatch_abasto _ _ _ htype]
  refine ⟨?_, ?_, ?_⟩
  · show stock_of (apply_stock s.invGen (parse_issue ev today).items (-1)) sku = _
    unfold apply_stock
    rw [hclean]
    show stock_of (apply_stock_one s.invGen sku (-1 * q)) sku = _
    rw [stock_of_apply_stock_one]
    ring
  · show stock_of (apply_stock s.invMkt (parse_issue ev today).items 1) sku = _
    unfold apply_stock
    rw [hclean]
    show stock_of (apply_stock_one s.invMkt sku (1 * q)) sku = _
    rw [stock_of_apply_stock_one]
    ring
  · show append_transfer_mkt s.transferRows (parse_issue ev today).fecha
        (parse_issue ev today).items (parse_issue ev today).issue_url txn = _
    unfold append_transfer_mkt
    rw [hclean, parse_issue_url]
    rfl

/-- C8 (witness): the claim's concrete scenario — transfer-tagged event with
row `SKU-B | 2` moves 2 units from general (10 → 8) to market (0 → 2) and
appends one priceless transfer row. -/
theorem C8_transfer_effects_witness :
    stock_of ((mainStep cTransferState (some cAbastoEv) cToday (str "TM")).1).invGen (str "SKU-B")
      = stock_of cTransferState.invGen (str "SKU-B") - 2
    ∧ stock_of ((mainStep cTransferState (some cAbastoEv) cToday (str "TM")).1).invMkt
        (str "SKU-B")
      = stock_of cTransferState.invMkt (str "SKU-B") + 2
    ∧ ((mainStep cTransferState (some cAbastoEv) cToday (str "TM")).1).transferRows
      = cTransferState.transferRows
          ++ [⟨str "TM", (parse_issue cAbastoEv cToday).fecha, str "SKU-B", 2,
              cAbastoEv.html_url⟩] :=
  C8_transfer_effects cTransferState cAbastoEv cToday (str "TM") (str "SKU-B") 2
    (Or.inl (by decide)) (by decide)

/-! ## C10 -/

lemma dropWhile_idem (p : Char → Bool) (l : Str) :
    (l.dropWhile p).dropWhile p = l.dropWhile p := by
  induction l with
  | nil => rfl
  | cons c t ih =>
    by_cases h : p c
    · simp [List.dropWhile_cons, h, ih]
    · simp [List.dropWhile_cons, h]

lemma stripL_idem (l : Str) : stripL (stripL l) = stripL l :=
  dropWhile_idem isPyWs l

lemma stripR_idem (l : Str) : stripR (stripR l) = stripR l := by
  unfold stripR
  rw [List.reverse_reverse, dropWhile_idem]

/-- Right stripping keeps a leading portion of its argument. -/
lemma stripR_leading (l : Str) : stripR l <+: l := by
  have h : l.reverse.dropWhile isPyWs <:+ l.reverse := List.dropWhile_suffix isPyWs
  have := List.reverse_prefix.mpr h
  rwa [List.reverse_reverse] at this

/-- A left-stripped list is untouched by another left strip even after a
right strip. -/
lemma stripL_stripR_of_stripL (l : Str) (h : stripL l = l) :
    stripL (stripR l) = stripR l := by
  rcases l with _ | ⟨c, t⟩
  · rfl
  · have hc : isPyWs c = false := by
      rcases hpc : isPyWs c
      · rfl
      · unfold stripL at h
        rw [List.dropWhile_cons, hpc, if_pos rfl] at h
        have := congrArg List.length h
        have hsub : List.Sublist (t.dropWhile isPyWs) t := List.dropWhile_sublist isPyWs
        have hlen := hsub.length_le
        simp at this
        omega
    rcases List.prefix_cons_iff.mp (stripR_leading (c :: t)) with h0 | ⟨t', ht', _⟩
    · rw [h0]; rfl
    · rw [ht']
      unfold stripL
      rw [List.dropWhile_cons, hc]
      rfl

/-- Python stripping is idempotent. -/
lemma pyStrip_idem (l : Str) : pyStrip (pyStrip l) = pyStrip l := by
  unfold pyStrip
  rw [stripL_stripR_of_stripL (stripL l) (stripL_idem l), stripR_idem]

/-- SKU validity is invariant under the strip `_clean_items` performs. -/
lemma is_valid_sku_pyStrip (l : Str) : is_valid_sku (pyStrip l) = is_valid_sku l := by
  unfold is_valid_sku
  rw [pyStrip_idem]

/-- Cleaning the single fallback item of quantity 1 keeps it (fields
stripped, literal price retained) whenever the `Item` code is valid. -/
lemma clean_items_single1T (item p : Str) (hsku : is_valid_sku item = true) :
    clean_items [⟨item, 1, p⟩] true = [⟨pyStrip item, 1, pyStrip p⟩] := by
  unfold clean_items
  simp only [List.filterMap]
  rw [is_valid_sku_pyStrip, hsku]
  rfl

/-- Cleaning the single fallback item of quantity 1 without a price
column. -/
lemma clean_items_single1F (item p : Str) (hsku : is_valid_sku item = true) :
    clean_items [⟨item, 1, p⟩] false = [⟨pyStrip item, 1, []⟩] := by
  unfold clean_items
  simp only [List.filterMap]
  rw [is_valid_sku_pyStrip, hsku]
  rfl

/-- Applying stock for a single cleaned item of quantity 1 moves that SKU's
stock by exactly the sign. -/
lemma stock_of_apply_stock_single (inv : List InvRecord) (its : List RawItem)
    (sku : Str) (sign : Int)
    (hclean : clean_items its false = [⟨sku, 1, []⟩]) :
    stock_of (apply_stock inv its sign) sku = stock_of inv sku + sign := by
  unfold apply_stock
  rw [hclean]
  show stock_of (apply_stock_one inv sku (sign * 1)) sku = _
  rw [stock_of_apply_stock_one, mul_one]

/-- Upserting the single cleaned item of quantity 1 appends exactly one
sale ledger row of quantity 1 for its SKU. -/
lemma append_sales_single_map (L : List SaleRow) (inv : List InvRecord) (fecha : Str)
    (its : List RawItem) (url metodo txn sku p : Str)
    (hclean : clean_items its true = [⟨sku, 1, p⟩]) :
    (append_sales L inv fecha its url metodo txn).map (fun r => (r.item, r.cantidad))
      = (L.filter (fun r => decide (r.source_id ∉ [url ++ '#' :: natToStr 0]))).map
          (fun r => (r.item, r.cantidad)) ++ [(sku, 1)] := by
  unfold append_sales
  rw [hclean]
  simp only [List.isEmpty_cons, Bool.false_eq_true, if_false]
  unfold sale_rows_of
  rw [hclean]
  unfold saleRowsGo upsert_rows
  rw [List.map_append]
  rfl

/-- A single cleaned item of quantity 1 appends one production row. -/
lemma append_production_single (L : List PlainRow) (fecha : Str) (its : List RawItem)
    (url txn sku : Str) (hclean : clean_items its false = [⟨sku, 1, []⟩]) :
    append_production L fecha its url txn = L ++ [⟨txn, fecha, sku, 1, url⟩] := by
  unfold append_production
  rw [hclean]
  rfl

/-- A single cleaned item of quantity 1 appends one transfer row. -/
lemma append_transfer_single (L : List PlainRow) (fecha : Str) (its : List RawItem)
    (url txn sku : Str) (hclean : clean_items its false = [⟨sku, 1, []⟩]) :
    append_transfer_mkt L fecha its url txn = L ++ [⟨txn, fecha, sku, 1, url⟩] := by
  unfold append_transfer_mkt
  rw [hclean]
  rfl

/-- C10 (confirmed): for every event carrying a recognized transaction tag
whose body yields no parseable items table, the classifier falls back to
the discrete labelled `Item`/`Cantidad` fields and builds a single line
item — in each of the four branches: general sale, production, market
sale, and market transfer.  When `Cantidad` does not parse as an integer
the quantity defaults to 1 instead of the event being dropped, so with a
valid `Item` code the event mutates that branch's ledger(s) and stock with
quantity 1. -/
theorem C10_single_item_fallback (s : State) (ev : Event) (today txn : Str)
    (htblT : parse_items_table ev.body true = [])
    (htblF : parse_items_table ev.body false = [])
    (hcant : parsePyInt (grab_field ev.body (str "Cantidad")) = Option.none)
    (hsku : is_valid_sku (grab_field ev.body (str "Item")) = true) :
    (((labelsOf ev).contains (str "venta") && !(labelsOf ev).contains (str "venta-mercado")
        && !(labelsOf ev).contains (str "mercado")) = true →
      (parse_issue ev today).type = .ventaSingle
      ∧ (parse_issue ev today).items
          = [⟨grab_field ev.body (str "Item"), 1,
              grab_field ev.body (str "Precio unitario (opcional)")⟩]
      ∧ stock_of ((mainStep s (some ev) today txn).1).invGen
            (pyStrip (grab_field ev.body (str "Item")))
          = stock_of s.invGen (pyStrip (grab_field ev.body (str "Item"))) - 1
      ∧ ((mainStep s (some ev) today txn).1).salesGen.map (fun r => (r.item, r.cantidad))
          = (s.salesGen.filter (fun r =>
                decide (r.source_id ∉ [ev.html_url ++ '#' :: natToStr 0]))).map
              (fun r => (r.item, r.cantidad))
            ++ [(pyStrip (grab_field ev.body (str "Item")), 1)])
    ∧ (((labelsOf ev).contains (str "venta") && !(labelsOf ev).contains (str "venta-mercado")
        && !(labelsOf ev).contains (str "mercado")) = false →
      ((labelsOf ev).contains (str "produccion")
        || (labelsOf ev).contains (str "producción")) = true →
      (parse_issue ev today).type = .prodSingle
      ∧ (parse_issue ev today).items = [⟨grab_field ev.body (str "Item"), 1, []⟩]
      ∧ stock_of ((mainStep s (some ev) today txn).1).invGen
            (pyStrip (grab_field ev.body (str "Item")))
          = stock_of s.invGen (pyStrip (grab_field ev.body (str "Item"))) + 1
      ∧ ((mainStep s (some ev) today txn).1).prodRows
          = s.prodRows ++ [⟨txn, (parse_issue ev today).fecha,
              pyStrip (grab_field ev.body (str "Item")), 1, ev.html_url⟩])
    ∧ (((labelsOf ev).contains (str "venta") && !(labelsOf ev).contains (str "venta-mercado")
        && !(labelsOf ev).contains (str "mercado")) = false →
      ((labelsOf ev).contains (str "produccion")
        || (labelsOf ev).contains (str "producción")) = false →
      ((labelsOf ev).contains (str "venta-mercado")
        || ((labelsOf ev).contains (str "mercado")
            && (labelsOf ev).contains (str "venta"))) = true →
      (parse_issue ev today).type = .ventaMktSingle
      ∧ (parse_issue ev today).items
          = [⟨grab_field ev.body (str "Item"), 1,
              grab_field ev.body (str "Precio unitario (opcional)")⟩]
      ∧ stock_of ((mainStep s (some ev) today txn).1).invMkt
            (pyStrip (grab_field ev.body (str "Item")))
          = stock_of s.invMkt (pyStrip (grab_field ev.body (str "Item"))) - 1
      ∧ ((mainStep s (some ev) today txn).1).salesMkt.map (fun r => (r.item, r.cantidad))
          = (s.salesMkt.filter (fun r =>
                decide (r.source_id ∉ [ev.html_url ++ '#' :: natToStr 0]))).map
              (fun r => (r.item, r.cantidad))
            ++ [(pyStrip (grab_field ev.body (str "Item")), 1)])
    ∧ (((labelsOf ev).contains (str "venta") && !(labelsOf ev).contains (str "venta-mercado")
        && !(labelsOf ev).contains (str "mercado")) = false →
      ((labelsOf ev).contains (str "produccion")
        || (labelsOf ev).contains (str "producción")) = false →
      ((labelsOf ev).contains (str "venta-mercado")
        || ((labelsOf ev).contains (str "mercado")
            && (labelsOf ev).contains (str "venta"))) = false →
      ((labelsOf ev).contains (str "abasto-mercado")
        || (labelsOf ev).contains (str "traspaso-mercado")) = true →
      (parse_issue ev today).type = .abastoMktSingle
      ∧ (parse_issue ev today).items = [⟨grab_field ev.body (str "Item"), 1, []⟩]
      ∧ stock_of ((mainStep s (some ev) today txn).1).invGen
            (pyStrip (grab_field ev.body (str "Item")))
          = stock_of s.invGen (pyStrip (grab_field ev.body (str "Item"))) - 1
      ∧ stock_of ((mainStep s (some ev) today txn).1).invMkt
            (pyStrip (grab_field ev.body (str "Item")))
          = stock_of s.invMkt (pyStrip (grab_field ev.body (str "Item"))) + 1
      ∧ ((mainStep s (some ev) today txn).1).transferRows
          = s.transferRows ++ [⟨txn, (parse_issue ev today).fecha,
              pyStrip (grab_field ev.body (str "Item")), 1, ev.html_url⟩]) := by
  have hd : (mainStep s (some ev) today txn).1 = dispatch s (parse_issue ev today) txn := rfl
  refine ⟨fun hg1 => ?_, fun hg1 hg2 => ?_, fun hg1 hg2 hg3 => ?_, fun hg1 hg2 hg3 hg4 => ?_⟩
  · have htype : (parse_issue ev today).type = .ventaSingle := by
      unfold parse_issue
      simp only [hg1, if_true, htblT, List.isEmpty_nil]
    have hitems : (parse_issue ev today).items
        = [⟨grab_field ev.body (str "Item"), 1,
            grab_field ev.body (str "Precio unitario (opcional)")⟩] := by
      unfold parse_issue
      simp only [hg1, if_true, htblT, List.isEmpty_nil]
      unfold singleFallback
      rw [hcant]
      rfl
    have hcleanf : clean_items (parse_issue ev today).items false
        = [⟨pyStrip (grab_field ev.body (str "Item")), 1, []⟩] := by
      rw [hitems, clean_items_single1F _ _ hsku]
    have hclean : clean_items (parse_issue ev today).items true
        = [⟨pyStrip (grab_field ev.body (str "Item")), 1,
            pyStrip (grab_field ev.body (str "Precio unitario (opcional)"))⟩] := by
      rw [hitems, clean_items_single1T _ _ hsku]
    refine ⟨htype, hitems, ?_, ?_⟩
    · rw [hd, dispatch_venta _ _ _ (Or.inr htype)]
      show stock_of (apply_stock s.invGen (parse_issue ev today).items (-1)) _ = _
      rw [stock_of_apply_stock_single s.invGen _ _ (-1) hcleanf]
      ring
    · rw [hd, dispatch_venta _ _ _ (Or.inr htype)]
      show (append_sales s.salesGen s.invGen (parse_issue ev today).fecha
          (parse_issue ev today).items (parse_issue ev today).issue_url
          (parse_issue ev today).metodo_pago txn).map (fun r => (r.item, r.cantidad)) = _
      rw [parse_issue_url]
      exact append_sales_single_map s.salesGen s.invGen _ _ ev.html_url _ txn _ _ hclean
  · have htype : (parse_issue ev today).type = .prodSingle := by
      unfold parse_issue
      simp only [hg1, Bool.false_eq_true, if_false, hg2, if_true, htblF, List.isEmpty_nil]
    have hitems : (parse_issue ev today).items
        = [⟨grab_field ev.body (str "Item"), 1, []⟩] := by
      unfold parse_issue
      simp only [hg1, Bool.false_eq_true, if_false, hg2, if_true, htblF, List.isEmpty_nil]
      unfold singleFallback
      rw [hcant]
      rfl
    have hcleanf : clean_items (parse_issue ev today).items false
        = [⟨pyStrip (grab_field ev.body (str "Item")), 1, []⟩] := by
      rw [hitems, clean_items_single1F _ _ hsku]
    refine ⟨htype, hitems, ?_, ?_⟩
    · rw [hd, dispatch_prod _ _ _ (Or.inr htype)]
      show stock_of (apply_stock s.invGen (parse_issue ev today).items 1) _ = _
      rw [stock_of_apply_stock_single s.invGen _ _ 1 hcleanf]
    · rw [hd, dispatch_prod _ _ _ (Or.inr htype)]
      show append_production s.prodRows (parse_issue ev today).fecha
          (parse_issue ev today).items (parse_issue ev today).issue_url txn = _
      rw [parse_issue_url]
      exact append_production_single s.prodRows _ _ ev.html_url txn _ hcleanf
  · have htype : (parse_issue ev today).type = .ventaMktSingle := by
      unfold parse_issue
      simp only [hg1, hg2, Bool.false_eq_true, if_false, hg3, if_true, htblT,
        List.isEmpty_nil]
    have hitems : (parse_issue ev today).items
        = [⟨grab_field ev.body (str "Item"), 1,
            grab_field ev.body (str "Precio unitario (opcional)")⟩] := by
      unfold parse_issue
      simp only [hg1, hg2, Bool.false_eq_true, if_false, hg3, if_true, htblT,
        List.isEmpty_nil]
      unfold singleFallback
      rw [hcant]
      rfl
    have hcleanf : clean_items (parse_issue ev today).items false
        = [⟨pyStrip (grab_field ev.body (str "Item")), 1, []⟩] := by
      rw [hitems, clean_items_single1F _ _ hsku]
    have hclean : clean_items (parse_issue ev today).items true
        = [⟨pyStrip (grab_field ev.body (str "Item")), 1,
            pyStrip (grab_field ev.body (str "Precio unitario (opcional)"))⟩] := by
      rw [hitems, clean_items_single1T _ _ hsku]
    refine ⟨htype, hitems, ?_, ?_⟩
    · rw [hd, dispatch_venta_mkt _ _ _ (Or.inr htype)]
      show stock_of (apply_stock s.invMkt (parse_issue ev today).items (-1)) _ = _
      rw [stock_of_apply_stock_single s.invMkt _ _ (-1) hcleanf]
      ring
    · rw [hd, dispatch_venta_mkt _ _ _ (Or.inr htype)]
      show (append_sales s.salesMkt s.invMkt (parse_issue ev today).fecha
          (parse_issue ev today).items (parse_issue ev today).issue_url
          (parse_issue ev today).metodo_pago txn).map (fun r => (r.item, r.cantidad)) = _
      rw [parse_issue_url]
      exact append_sales_single_map s.salesMkt s.invMkt _ _ ev.html_url _ txn _ _ hclean
  · have htype : (parse_issue ev today).type = .abastoMktSingle := by
      unfold parse_issue
      simp only [hg1, hg2, hg3, Bool.false_eq_true, if_false, hg4, if_true, htblF,
        List.isEmpty_nil]
    have hitems : (parse_issue ev today).items
        = [⟨grab_field ev.body (str "Item"), 1, []⟩] := by
      unfold parse_issue
      simp only [hg1, hg2, hg3, Bool.false_eq_true, if_false, hg4, if_true, htblF,
        List.isEmpty_nil]
      unfold singleFallback
      rw [hcant]
      rfl
    have hcleanf : clean_items (parse_issue ev today).items false
        = [⟨pyStrip (grab_field ev.body (str "Item")), 1, []⟩] := by
      rw [hitems, clean_items_single1F _ _ hsku]
    refine ⟨htype, hitems, ?_, ?_, ?_⟩
    · rw [hd, dispatch_abasto _ _ _ (Or.inr htype)]
      show stock_of (apply_stock s.invGen (parse_issue ev today).items (-1)) _ = _
      rw [stock_of_apply_stock_single s.invGen _ _ (-1) hcleanf]
      ring
    · rw [hd, dispatch_abasto _ _ _ (Or.inr htype)]
      show stock_of (apply_stock s.invMkt (parse_issue ev today).items 1) _ = _
      rw [stock_of_apply_stock_single s.invMkt _ _ 1 hcleanf]
    · rw [hd, dispatch_abasto _ _ _ (Or.inr htype)]
      show append_transfer_mkt s.transferRows (parse_issue ev today).fecha
          (parse_issue ev today).items (parse_issue ev today).issue_url txn = _
      rw [parse_issue_url]
      exact append_transfer_single s.transferRows _ _ ev.html_url txn _ hcleanf

/-- C10 (witness): the fallback exercised in all four branches with the
concrete table-less body `Item: SKU-C` / `Cantidad: muchos` — a general
sale (stock −1 and one ledger row of quantity 1), a production (one
production row of quantity 1), a market sale (market stock −1), and a
market transfer (one transfer row of quantity 1). -/
theorem C10_single_item_fallback_witness :
    ((parse_issue cFallbackEv cToday).type = TxType.ventaSingle
      ∧ stock_of ((mainStep emptyState (some cFallbackEv) cToday (str "S")).1).invGen
            (pyStrip (grab_field cFallbackEv.body (str "Item")))
          = stock_of emptyState.invGen
              (pyStrip (grab_field cFallbackEv.body (str "Item"))) - 1
      ∧ ((mainStep emptyState (some cFallbackEv) cToday (str "S")).1).salesGen.map
            (fun r => (r.item, r.cantidad))
          = (emptyState.salesGen.filter (fun r =>
                decide (r.source_id ∉ [cFallbackEv.html_url ++ '#' :: natToStr 0]))).map
              (fun r => (r.item, r.cantidad))
            ++ [(pyStrip (grab_field cFallbackEv.body (str "Item")), 1)])
    ∧ ((parse_issue cFallbackProdEv cToday).type = TxType.prodSingle
      ∧ ((mainStep emptyState (some cFallbackProdEv) cToday (str "P")).1).prodRows
          = emptyState.prodRows
            ++ [⟨str "P", (parse_issue cFallbackProdEv cToday).fecha,
                pyStrip (grab_field cFallbackProdEv.body (str "Item")), 1,
                cFallbackProdEv.html_url⟩])
    ∧ ((parse_issue cFallbackMktEv cToday).type = TxType.ventaMktSingle
      ∧ stock_of ((mainStep emptyState (some cFallbackMktEv) cToday (str "SM")).1).invMkt
            (pyStrip (grab_field cFallbackMktEv.body (str "Item")))
          = stock_of emptyState.invMkt
              (pyStrip (grab_field cFallbackMktEv.body (str "Item"))) - 1)
    ∧ ((parse_issue cFallbackAbastoEv cToday).type = TxType.abastoMktSingle
      ∧ ((mainStep emptyState (some cFallbackAbastoEv) cToday (str "TM")).1).transferRows
          = emptyState.transferRows
            ++ [⟨str "TM", (parse_issue cFallbackAbastoEv cToday).fecha,
                pyStrip (grab_field cFallbackAbastoEv.body (str "Item")), 1,
                cFallbackAbastoEv.html_url⟩]) := by
  refine ⟨?_, ?_, ?_, ?_⟩
  · have h := (C10_single_item_fallback emptyState cFallbackEv cToday (str "S")
      (by decide) (by decide) (by decide) (by decide)).1 (by decide)
    exact ⟨h.1, h.2.2.1, h.2.2.2⟩
  · have h := (C10_single_item_fallback emptyState cFallbackProdEv cToday (str "P")
      (by decide) (by decide) (by decide) (by decide)).2.1 (by decide) (by decide)
    exact ⟨h.1, h.2.2.2⟩
  · have h := (C10_single_item_fallback emptyState cFallbackMktEv cToday (str "SM")
      (by decide) (by decide) (by decide) (by decide)).2.2.1 (by decide) (by decide)
      (by decide)
    exact ⟨h.1, h.2.2.1⟩
  · have h := (C10_single_item_fallback emptyState cFallbackAbastoEv cToday (str "TM")
      (by decide) (by decide) (by decide) (by decide)).2.2.2 (by decide) (by decide)
      (by decide) (by decide)
    exact ⟨h.1, h.2.2.2.2⟩

/-! ## C7 -/



/-- The keep-last dedup is the identity when the keys are already unique. -/
lemma keepLastBy_eq_self {α β : Type} [DecidableEq β] (key : α → β) :
    ∀ l : List α, (l.map key).Nodup → keepLastBy key l = l := by
  intro l
  induction l with
  | nil => intro _; rfl
  | cons r t ih =>
    intro hnd
    rw [List.map_cons, List.nodup_cons] at hnd
    unfold keepLastBy
    have hany : t.any (fun x => decide (key x = key r)) = false := by
      rw [List.any_eq_false]
      intro x hx hpx
      exact hnd.1 (of_decide_eq_true hpx ▸ List.mem_map_of_mem key hx)
    rw [hany]
    simp only [Bool.false_eq_true, if_false]
    rw [ih hnd.2]

/-- The group keys of a rollup are strictly ascending. -/
lemma sortedKeysBy_sorted (key : SaleRow → Str) (rows : List SaleRow) :
    List.Sorted (· < ·) (sortedKeysBy key rows) := by
  have hs : List.Sorted (· ≤ ·) (sortedKeysBy key rows) :=
    List.sorted_insertionSort (· ≤ ·) ((rows.map key).dedup)
  have hnd : (sortedKeysBy key rows).Nodup :=
    (List.perm_insertionSort (· ≤ ·) ((rows.map key).dedup)).nodup_iff.mpr
      (List.nodup_dedup _)
  exact hs.lt_of_le hnd

/-- The per-item rollup is strictly ascending in `item`. -/
lemma rollup_item_sorted (rows : List SaleRow) :
    List.Sorted (fun a b : ItemAgg => a.item < b.item) (rollup_item rows) := by
  unfold rollup_item
  exact List.Pairwise.map _ (fun a b h => h) (sortedKeysBy_sorted SaleRow.item rows)

/-- On records whose `item` keys strictly separate them, the two-key
comparison agrees with the three-key one, so inserting below either
relation gives the same list. -/
lemma orderedInsert_two_three (a : ItemAgg) :
    ∀ L : List ItemAgg, (∀ x ∈ L, a.item < x.item) →
      L.orderedInsert aggTwoKey a = L.orderedInsert aggThreeKey a := by
  intro L
  induction L with
  | nil => intro _; rfl
  | cons b t ih =>
    intro hlt
    have hiff : aggTwoKey a b ↔ aggThreeKey a b := by
      unfold aggTwoKey aggThreeKey
      have hab : a.item ≤ b.item := le_of_lt (hlt b (List.mem_cons_self b t))
      constructor
      · rintro (h | ⟨h1, h2⟩)
        · exact Or.inl h
        · rcases lt_or_eq_of_le h2 with g | g
          · exact Or.inr ⟨h1, Or.inl g⟩
          · exact Or.inr ⟨h1, Or.inr ⟨g.symm, hab⟩⟩
      · rintro (h | ⟨h1, h2 | ⟨h2, _⟩⟩)
        · exact Or.inl h
        · exact Or.inr ⟨h1, le_of_lt h2⟩
        · exact Or.inr ⟨h1, le_of_eq h2.symm⟩
    unfold List.orderedInsert
    by_cases h : aggTwoKey a b
    · rw [if_pos h, if_pos (hiff.mp h)]
    · rw [if_neg h, if_neg (fun hc => h (hiff.mpr hc))]
      rw [ih (fun x hx => hlt x (List.mem_cons_of_mem b hx))]

/-- The stable two-key sort of a list already strictly ascending in `item`
coincides with the stable three-key sort: the pandas `lexsort` order of
`process_issue.build_reports` equals the explicit-tie-break order of
`build_reports.py`. -/
lemma insertionSort_two_three :
    ∀ l : List ItemAgg, List.Sorted (fun a b : ItemAgg => a.item < b.item) l →
      List.insertionSort aggTwoKey l = List.insertionSort aggThreeKey l := by
  intro l
  induction l with
  | nil => intro _; rfl
  | cons a t ih =>
    intro hs
    unfold List.insertionSort
    rw [ih hs.of_cons]
    apply orderedInsert_two_three
    intro x hx
    exact List.rel_of_sorted_cons hs x ((List.perm_insertionSort _ t).subset hx)

/-- C7 (confirmed): on a non-empty sale ledger whose `source_id`s are
unique (the invariant the upsert maintains), both report implementations
produce the identical per-item rollup, sorted descending by quantity, then
descending by amount, then ascending by product code — a stable total
order. -/
theorem C7_per_item_rollup_order (rows : List SaleRow) (hne : rows ≠ [])
    (hnd : (rows.map SaleRow.source_id).Nodup) :
    by_item_process_issue rows = by_item_build_reports rows
    ∧ List.Sorted aggThreeKey (by_item_build_reports rows) := by
  constructor
  · unfold by_item_process_issue by_item_build_reports
    rw [keepLastBy_eq_self SaleRow.source_id rows hnd]
    exact insertionSort_two_three (rollup_item rows) (rollup_item_sorted rows)
  · exact List.sorted_insertionSort aggThreeKey (rollup_item rows)



/-- C7 (witness): both rollups at the concrete two-row ledger
`[cRowB, cRowA]`, whose full tie is broken ascending by product code. -/
theorem C7_per_item_rollup_order_witness :
    by_item_process_issue [cRowB, cRowA] = by_item_build_reports [cRowB, cRowA]
    ∧ List.Sorted aggThreeKey (by_item_build_reports [cRowB, cRowA]) :=
  C7_per_item_rollup_order [cRowB, cRowA] (by decide) (by decide)

/-! ## C9 -/



lemma sum_indicator {β : Type} [DecidableEq β] (b : β) (v : Int) :
    ∀ ks : List β, ks.Nodup → b ∈ ks →
      (ks.map (fun k => if b = k then v else 0)).sum = v := by
  intro ks
  induction ks with
  | nil => intro _ hb; cases hb
  | cons k t ih =>
    intro hnd hb
    rw [List.nodup_cons] at hnd
    rw [List.map_cons, List.sum_cons]
    by_cases h : b = k
    · rw [if_pos h]
      have hz : (t.map (fun k' => if b = k' then v else 0)).sum = 0 := by
        apply List.sum_eq_zero
        intro x hx
        rcases List.mem_map.mp hx with ⟨k', hk', rfl⟩
        rw [if_neg]
        intro hc
        rw [← hc, h] at hk'
        exact hnd.1 hk'
      rw [hz, add_zero]
    · rw [if_neg h, zero_add]
      rcases List.mem_cons.mp hb with rfl | hb'
      · exact absurd rfl h
      · exact ih hnd.2 hb'

/-- Summing the grouped sums over any complete duplicate-free key list
recovers the total over all rows. -/
lemma sum_over_keys {β : Type} [DecidableEq β] (key : SaleRow → β) (f : SaleRow → Int) :
    ∀ (rows : List SaleRow) (ks : List β), ks.Nodup → (∀ r ∈ rows, key r ∈ ks) →
      (ks.map (fun k => ((rows.filter (fun r => decide (key r = k))).map f).sum)).sum
        = (rows.map f).sum := by
  intro rows
  induction rows with
  | nil =>
    intro ks _ _
    simp
  | cons r t ih =>
    intro ks hnd hmem
    have hsplit : ∀ k : β, (((r :: t).filter (fun r' => decide (key r' = k))).map f).sum
        = (if key r = k then f r else 0)
          + ((t.filter (fun r' => decide (key r' = k))).map f).sum := by
      intro k
      by_cases h : key r = k
      · rw [List.filter_cons_of_pos (by simpa using h), List.map_cons, List.sum_cons,
          if_pos h]
      · rw [List.filter_cons_of_neg (by simpa using h), if_neg h, zero_add]
    simp only [hsplit]
    rw [List.sum_map_add]
    rw [sum_indicator (key r) (f r) ks hnd (hmem r (List.mem_cons_self r t)),
      ih ks hnd (fun x hx => hmem x (List.mem_cons_of_mem r hx))]
    rw [List.map_cons, List.sum_cons]

/-- Every row's key occurs among the sorted distinct group keys. -/
lemma mem_sortedKeysBy (key : SaleRow → Str) (rows : List SaleRow) (r : SaleRow)
    (hr : r ∈ rows) : key r ∈ sortedKeysBy key rows := by
  unfold sortedKeysBy
  rw [List.mem_insertionSort, List.mem_dedup]
  exact List.mem_map_of_mem key hr

/-- The quantity total of the per-item rollup equals the ledger total. -/
lemma rollup_item_sum (rows : List SaleRow) :
    sumAggQty (rollup_item rows) = sumQty rows := by
  unfold sumAggQty rollup_item sumQty
  rw [List.map_map]
  exact sum_over_keys SaleRow.item SaleRow.cantidad rows (sortedKeysBy SaleRow.item rows)
    ((List.perm_insertionSort (· ≤ ·) _).nodup_iff.mpr (List.nodup_dedup _))
    (mem_sortedKeysBy SaleRow.item rows)

/-- The quantity total of the per-day rollup equals the ledger total. -/
lemma rollup_day_sum (rows : List SaleRow) :
    sumDayQty (rollup_day rows) = sumQty rows := by
  unfold sumDayQty rollup_day sumQty
  rw [List.map_map]
  exact sum_over_keys SaleRow.fecha SaleRow.cantidad rows (sortedKeysBy SaleRow.fecha rows)
    ((List.perm_insertionSort (· ≤ ·) _).nodup_iff.mpr (List.nodup_dedup _))
    (mem_sortedKeysBy SaleRow.fecha rows)

/-- C9 (confirmed): for a non-empty sale ledger whose `source_id`s are
unique (the invariant the upsert maintains, which makes the defensive
dedup a no-op), the per-item rollup quantities, the per-day rollup
quantities, and the total quantity over all ledger rows coincide. -/
theorem C9_rollup_sum_consistency (rows : List SaleRow) (hne : rows ≠ [])
    (hnd : (rows.map SaleRow.source_id).Nodup) :
    sumAggQty (by_item_process_issue rows) = sumDayQty (by_day_process_issue rows)
    ∧ sumAggQty (by_item_process_issue rows) = sumQty rows := by
  have hkl : keepLastBy SaleRow.source_id rows = rows :=
    keepLastBy_eq_self SaleRow.source_id rows hnd
  have hsorted : sumAggQty (by_item_process_issue rows) = sumAggQty (rollup_item rows) := by
    unfold by_item_process_issue sumAggQty
    rw [hkl]
    exact ((List.perm_insertionSort aggTwoKey (rollup_item rows)).map ItemAgg.cantidad).sum_eq
  have hday : by_day_process_issue rows = rollup_day rows := by
    unfold by_day_process_issue
    rw [hkl]
  constructor
  · rw [hsorted, hday, rollup_item_sum, rollup_day_sum]
  · rw [hsorted, rollup_item_sum]

/-- C9 (witness): the sums at the concrete two-row ledger `[cRowB, cRowA]`
(total quantity 2). -/
theorem C9_rollup_sum_consistency_witness :
    sumAggQty (by_item_process_issue [cRowB, cRowA])
      = sumDayQty (by_day_process_issue [cRowB, cRowA])
    ∧ sumAggQty (by_item_process_issue [cRowB, cRowA]) = sumQty [cRowB, cRowA] :=
  C9_rollup_sum_consistency [cRowB, cRowA] (by decide) (by decide)

end Ventas
